import Mathlib

/-!
Formal model of the scroll-driven architectural walkthrough controller in
`src/main.js`.

Numbers are modelled in a linear ordered field `α` with a floor (so that the
JavaScript truncating `%` can be expressed).  The model is instantiated at `ℚ`
for executable witnesses and at `ℝ` (with `Real.pi` and `Real.tan`) for the
angle theorems.  The external collaborators of the core are passed as
parameters, exactly along the boundary drawn by the specification:
`Math.PI` is the `pi` argument, `Math.tan` is the `tan` argument,
`Date.now()` is the `now` argument, and the scroll-progress signal computed by
the page from DOM geometry is the `progress` argument of the per-frame update
(the degenerate-geometry computation of that signal itself is modelled
separately over `ℚ` with IEEE-754 special values, see `JsNum` below).
Babylon.js mesh/material/texture handles are modelled as records holding the
fields the program reads or writes; `Vector3` values are triples.
-/

set_option linter.unusedSectionVars false

namespace Scrollable

variable {α : Type*} [LinearOrderedField α] [FloorRing α]

/-- Utility `lerp` from `src/main.js` line 69. -/
def lerp (a b t : α) : α := a + (b - a) * t

/-- Utility `clamp` from `src/main.js` line 70: `Math.min(Math.max(v, min), max)`. -/
def clamp (v lo hi : α) : α := min (max v lo) hi

/-- JavaScript truncation toward zero, used by the semantics of the `%`
operator on numbers. -/
def jsTrunc (x : α) : ℤ := if 0 ≤ x then ⌊x⌋ else -⌊-x⌋

/-- JavaScript `a % b` for `b ≠ 0`: the remainder has the sign of the
dividend, `a % b = a - b * trunc (a / b)`. -/
def jsMod (a b : α) : α := a - b * ((jsTrunc (a / b) : ℤ) : α)

/-- `normalizeAlpha` from `src/main.js` lines 73-77: reduce an angle to
`[0, 2π)` via `%` with sign correction. -/
def normalizeAlpha (pi alpha : α) : α :=
  let a := jsMod alpha (2 * pi)
  if a < 0 then a + 2 * pi else a

/-- Loop body of `snapToNearest` (`src/main.js` lines 85-94).  The
accumulator is `(nearestAngle, minDiff)`; `minDiff = none` models the initial
`Infinity`. -/
def snapStep (pi normalized : α) (acc : α × Option α) (angle : α) : α × Option α :=
  let diff0 := |normalized - angle|
  let diff := if diff0 > pi then 2 * pi - diff0 else diff0
  match acc.2 with
  | none => (angle, some diff)
  | some m => if diff < m then (angle, some diff) else acc

/-- `snapToNearest` from `src/main.js` lines 80-97.  On the empty list the
JavaScript code would yield `undefined` (`angles[0]`); the model returns the
junk head `0` there, and every theorem below assumes a non-empty list. -/
def snapToNearest (pi alpha : α) (angles : List α) : α :=
  (angles.foldl (snapStep pi (normalizeAlpha pi alpha)) (angles.headD 0, none)).1

/-- `getQuadrant` from `src/main.js` lines 121-129. -/
def getQuadrant (pi alpha : α) : ℕ :=
  let a0 := jsMod alpha (2 * pi)
  let a := if a0 < 0 then a0 + 2 * pi else a0
  if a < pi / 2 then 1
  else if a < pi then 2
  else if a < 3 * pi / 2 then 3
  else 4

/-- Constant `BETA_TOP_DOWN` (line 52). -/
def BETA_TOP_DOWN : α := 0.000015

/-- Constant `BETA_ANGLED = Math.PI / 4` (line 53). -/
def BETA_ANGLED (pi : α) : α := pi / 4

/-- Constant `FOV_ORTHO` (line 54). -/
def FOV_ORTHO : α := 0.05

/-- Constant `FOV_PERSPECTIVE` (line 55). -/
def FOV_PERSPECTIVE : α := 0.34

/-- Constant `RADIUS_PERSPECTIVE` (line 56). -/
def RADIUS_PERSPECTIVE : α := 30

/-- Constant `APPARENT_SIZE_CONSTANT = RADIUS_PERSPECTIVE * Math.tan (FOV_PERSPECTIVE / 2)`
(line 58), with `Math.tan` as a parameter. -/
def APPARENT_SIZE_CONSTANT (tan : α → α) : α :=
  RADIUS_PERSPECTIVE * tan (FOV_PERSPECTIVE / 2)

/-- Constant `IDLE_TIMEOUT` in milliseconds (line 20). -/
def IDLE_TIMEOUT : α := 10000

/-- Constant `IDLE_ROTATION_SPEED` in radians per frame (line 21). -/
def IDLE_ROTATION_SPEED : α := 0.0005

/-- Constant `ACCENT_EMISSION_COLOR` (line 29). -/
def ACCENT_EMISSION_COLOR : α × α × α := (0.608, 0.733, 0.675)

/-- Constant `ACCENT_2_EMISSION_COLOR` (line 30). -/
def ACCENT_2_EMISSION_COLOR : α × α × α := (0.851, 0.902, 0.871)

/-- Constant array `STRAIGHT_ANGLES` (line 61). -/
def STRAIGHT_ANGLES (pi : α) : List α := [0, pi / 2, pi, 3 * pi / 2]

/-- Constant array `QUADRANT_CENTERS` (line 62). -/
def QUADRANT_CENTERS (pi : α) : List α :=
  [pi / 4, 3 * pi / 4, 5 * pi / 4, 7 * pi / 4]

/-- A Babylon.js mesh handle, restricted to the fields the program touches:
`setEnabled`, `visibility`, `scaling` and the captured `_originalScaling`. -/
structure Mesh (α : Type*) where
  enabled : Bool
  visibility : α
  scaling : α × α × α
  originalScaling : Option (α × α × α)
deriving DecidableEq

/-- The `ArcRotateCamera` fields the program reads or writes. -/
structure Camera (α : Type*) where
  alpha : α
  beta : α
  fov : α
  radius : α
  lowerBetaLimit : α
  upperBetaLimit : α
  lowerRadiusLimit : α
  upperRadiusLimit : α
  minZ : α
deriving DecidableEq

/-- Identity of one of the three blended procedural textures, used as the
value of a material's `emissiveTexture` reference. -/
inductive TexRef
  | white
  | accent
  | accent2
deriving DecidableEq

/-- A blended procedural texture: the uniforms and fields the program sets
(`blendFactor` via `setFloat`, `coordinatesIndex`). -/
structure BlendTex (α : Type*) where
  blendFactor : α
  coordinatesIndex : ℕ
deriving DecidableEq

/-- A material handle: emissive color (a `Color3` triple), the emissive
texture reference, and the dynamically-optional `emissiveIntensity`. -/
structure Material (α : Type*) where
  emissiveColor : α × α × α
  emissiveTexture : Option TexRef
  emissiveIntensity : Option α
deriving DecidableEq

/-- The GUI entrance marker image: which node it is linked with and the two
pixel offsets. -/
structure EntranceImage (α : Type*) where
  linkedNode : Option ℕ
  linkOffsetX : α
  linkOffsetY : α
deriving DecidableEq

/-- Keys of the `furnitureSets` record (line 43). -/
inductive FurnKey
  | furniture1
  | furniture2
  | furniture3
deriving DecidableEq

/-- Constant array `FURNITURE_OPTIONS` (line 49); `none` is the JS `null`
("no furniture") option. -/
def FURNITURE_OPTIONS : List (Option FurnKey) :=
  [some FurnKey.furniture1, some FurnKey.furniture2, some FurnKey.furniture3, none]

/-- The module-level mutable state of `src/main.js`.  `camera = none` models
the `null` camera before `createScene` constructs it; entrance nodes are
opaque handles (`ℕ`). -/
structure World (α : Type*) where
  camera : Option (Camera α)
  wallNorth : List (Mesh α)
  wallSouth : List (Mesh α)
  wallEast : List (Mesh α)
  wallWest : List (Mesh α)
  entranceNodeHigh : Option ℕ
  entranceNodeLow : Option ℕ
  entranceImage : Option (EntranceImage α)
  lastInteractionTime : α
  isIdleRotating : Bool
  isToggleMode : Bool
  accentMaterial : Option (Material α)
  accent2Material : Option (Material α)
  whiteMaterial : Option (Material α)
  originalAccentEmissive : Option (α × α × α)
  originalAccent2Emissive : Option (α × α × α)
  originalWhiteEmissive : Option (α × α × α)
  blendedTextureWhite : Option (BlendTex α)
  blendedTextureAccent : Option (BlendTex α)
  blendedTextureAccent2 : Option (BlendTex α)
  currentFurnitureIndex : ℕ
  furniture1 : List (Mesh α)
  furniture2 : List (Mesh α)
  furniture3 : List (Mesh α)
  transitionTargetAlpha : Option α
  lastTransitionProgress : α
  isOrthoView : Bool
  lastEntranceQuadrant : Option ℕ
deriving DecidableEq

/-- Set `enabled` on every mesh of a wall group (`mesh.setEnabled(b)`). -/
def setWallEnabled (b : Bool) (ms : List (Mesh α)) : List (Mesh α) :=
  ms.map fun m => { m with enabled := b }

/-- `hideAllWalls` from `src/main.js` lines 132-136. -/
def hideAllWalls (w : World α) : World α :=
  { w with wallNorth := setWallEnabled false w.wallNorth
           wallSouth := setWallEnabled false w.wallSouth
           wallEast := setWallEnabled false w.wallEast
           wallWest := setWallEnabled false w.wallWest }

/-- `showAllWalls` from `src/main.js` lines 139-143. -/
def showAllWalls (w : World α) : World α :=
  { w with wallNorth := setWallEnabled true w.wallNorth
           wallSouth := setWallEnabled true w.wallSouth
           wallEast := setWallEnabled true w.wallEast
           wallWest := setWallEnabled true w.wallWest }

/-- Directions of the four wall groups. -/
inductive Dir
  | north
  | south
  | east
  | west
deriving DecidableEq

/-- The fixed `hideMap` of `updateMeshVisibility` (`src/main.js` lines 354-359),
with `hideMap[quadrant] || []` for out-of-range quadrants. -/
def hideMap (quadrant : ℕ) : List Dir :=
  match quadrant with
  | 1 => [Dir.west, Dir.south]
  | 2 => [Dir.south, Dir.east]
  | 3 => [Dir.east, Dir.north]
  | 4 => [Dir.north, Dir.west]
  | _ => []

/-- `updateMeshVisibility` from `src/main.js` lines 353-367: each group is
enabled iff its direction is not in the quadrant's hide list. -/
def updateMeshVisibility (quadrant : ℕ) (w : World α) : World α :=
  let toHide := hideMap quadrant
  { w with wallNorth := setWallEnabled (!(toHide.contains Dir.north)) w.wallNorth
           wallSouth := setWallEnabled (!(toHide.contains Dir.south)) w.wallSouth
           wallEast := setWallEnabled (!(toHide.contains Dir.east)) w.wallEast
           wallWest := setWallEnabled (!(toHide.contains Dir.west)) w.wallWest }

/-- `updateWallVisibilityForMode` from `src/main.js` lines 209-223.  The
perspective-with-toggle-on branch reads `camera.alpha`; with a `null` camera
this is a TypeError, modelled as `none`. -/
def updateWallVisibilityForMode (pi : α) (w : World α) : Option (World α) :=
  if w.isOrthoView then some (hideAllWalls w)
  else
    if w.isToggleMode then
      match w.camera with
      | some cam => some (updateMeshVisibility (getQuadrant pi cam.alpha) w)
      | none => none
    else some (showAllWalls w)

/-- `updateAccentEmission` from `src/main.js` lines 146-164. -/
def updateAccentEmission (enabled : Bool) (w : World α) : World α :=
  let w1 :=
    match w.accentMaterial with
    | none => w
    | some m =>
      if enabled then
        { w with accentMaterial := some ({ m with emissiveColor := ACCENT_EMISSION_COLOR }) }
      else
        match w.originalAccentEmissive with
        | some c => { w with accentMaterial := some ({ m with emissiveColor := c }) }
        | none => w
  match w1.accent2Material with
  | none => w1
  | some m =>
    if enabled then
      { w1 with accent2Material := some ({ m with emissiveColor := ACCENT_2_EMISSION_COLOR }) }
    else
      match w1.originalAccent2Emissive with
      | some c => { w1 with accent2Material := some ({ m with emissiveColor := c }) }
      | none => w1

/-- Hide one list of furniture meshes (`setEnabled(false)`, `visibility = 0`). -/
def hideFurnitureMeshes (ms : List (Mesh α)) : List (Mesh α) :=
  ms.map fun m => { m with enabled := false, visibility := 0 }

/-- `hideAllFurniture` from `src/main.js` lines 167-174. -/
def hideAllFurniture (w : World α) : World α :=
  { w with furniture1 := hideFurnitureMeshes w.furniture1
           furniture2 := hideFurnitureMeshes w.furniture2
           furniture3 := hideFurnitureMeshes w.furniture3 }

/-- Per-set body of `updateFurnitureVisibility` (`src/main.js` lines 187-197):
enable/disable, set `visibility`, and restore `_originalScaling` when showing. -/
def setFurnitureSet (shouldShow : Bool) (ms : List (Mesh α)) : List (Mesh α) :=
  ms.map fun m =>
    { m with enabled := shouldShow
             visibility := if shouldShow then 1 else 0
             scaling :=
               if shouldShow then
                 match m.originalScaling with
                 | some o => o
                 | none => m.scaling
               else m.scaling }

/-- `updateFurnitureVisibility` from `src/main.js` lines 177-198. -/
def updateFurnitureVisibility (w : World α) : World α :=
  if w.isToggleMode = false then hideAllFurniture w
  else
    let currentOption := FURNITURE_OPTIONS.getD w.currentFurnitureIndex none
    { w with
      furniture1 := setFurnitureSet (decide (currentOption = some FurnKey.furniture1)) w.furniture1
      furniture2 := setFurnitureSet (decide (currentOption = some FurnKey.furniture2)) w.furniture2
      furniture3 := setFurnitureSet (decide (currentOption = some FurnKey.furniture3)) w.furniture3 }

/-- `cycleFurniture` from `src/main.js` lines 201-206 (the `console.log` is
external output and not modelled). -/
def cycleFurniture (w : World α) : World α :=
  updateFurnitureVisibility
    { w with currentFurnitureIndex := (w.currentFurnitureIndex + 1) % FURNITURE_OPTIONS.length }

/-- `toggleMode` from `src/main.js` lines 226-238. -/
def toggleMode (pi : α) (w : World α) : Option (World α) :=
  let w1 := { w with isToggleMode := !w.isToggleMode }
  let w2 := updateAccentEmission w1.isToggleMode w1
  match updateWallVisibilityForMode pi w2 with
  | none => none
  | some w3 => some (updateFurnitureVisibility w3)

/-- The blend factor `t` computed at `src/main.js` lines 245-252:
`section4Start = 0.66`, `fadeSpeed = 0.1`,
`t = progress >= 0.66 ? clamp((progress - 0.66) / 0.1, 0, 1) : 0`. -/
def sunBlendFactorOf (progress : α) : α :=
  if progress ≥ 0.66 then clamp ((progress - 0.66) / 0.1) 0 1 else 0

/-- `setFloat("blendFactor", t)` on an optional procedural texture. -/
def setBlendFactor (t : α) : Option (BlendTex α) → Option (BlendTex α)
  | none => none
  | some tex => some ({ tex with blendFactor := t })

/-- `coordinatesIndex = 0` on an optional procedural texture. -/
def setCoordsIndexZero : Option (BlendTex α) → Option (BlendTex α)
  | none => none
  | some tex => some ({ tex with coordinatesIndex := 0 })

/-- `updateSunPathTransition` from `src/main.js` lines 243-310. -/
def updateSunPathTransition (progress : α) (w : World α) : World α :=
  let t := sunBlendFactorOf progress
  let w1 := { w with
    blendedTextureWhite := setBlendFactor t w.blendedTextureWhite
    blendedTextureAccent := setBlendFactor t w.blendedTextureAccent
    blendedTextureAccent2 := setBlendFactor t w.blendedTextureAccent2 }
  if t = 0 then
    { w1 with
      accentMaterial := w1.accentMaterial.map fun m =>
        { m with emissiveTexture := none
                 emissiveColor := if w1.isToggleMode then ACCENT_EMISSION_COLOR else (1, 1, 1)
                 emissiveIntensity := m.emissiveIntensity.map fun _ => 1 }
      whiteMaterial := w1.whiteMaterial.map fun m =>
        { m with emissiveTexture := none
                 emissiveColor := (1, 1, 1)
                 emissiveIntensity := m.emissiveIntensity.map fun _ => 1 }
      accent2Material := w1.accent2Material.map fun m =>
        { m with emissiveTexture := none
                 emissiveColor := if w1.isToggleMode then ACCENT_2_EMISSION_COLOR else (1, 1, 1)
                 emissiveIntensity := m.emissiveIntensity.map fun _ => 1 } }
  else
    let w2 := { w1 with
      blendedTextureWhite := setCoordsIndexZero w1.blendedTextureWhite
      blendedTextureAccent := setCoordsIndexZero w1.blendedTextureAccent
      blendedTextureAccent2 := setCoordsIndexZero w1.blendedTextureAccent2 }
    { w2 with
      accentMaterial := w2.accentMaterial.map fun m =>
        { m with emissiveTexture := some (if w2.isToggleMode then TexRef.accent else TexRef.white)
                 emissiveColor := (1, 1, 1)
                 emissiveIntensity := m.emissiveIntensity.map fun _ => 1 }
      whiteMaterial := w2.whiteMaterial.map fun m =>
        { m with emissiveTexture := some TexRef.white
                 emissiveColor := (1, 1, 1)
                 emissiveIntensity := m.emissiveIntensity.map fun _ => 1 }
      accent2Material := w2.accent2Material.map fun m =>
        { m with emissiveTexture := some (if w2.isToggleMode then TexRef.accent2 else TexRef.white)
                 emissiveColor := (1, 1, 1)
                 emissiveIntensity := m.emissiveIntensity.map fun _ => 1 } }

/-- `updateFurnitureFade` from `src/main.js` lines 313-350. -/
def updateFurnitureFade (progress : α) (w : World α) : World α :=
  if w.isToggleMode = false then w
  else
    let section4Start : α := 0.66
    let shrinkSpeed : α := 0.05
    let shrinkProgress :=
      if progress ≥ section4Start then clamp ((progress - section4Start) / shrinkSpeed) 0 1
      else 0
    let minScale : α := 0.9
    let scale := lerp 1 minScale shrinkProgress
    let fade : List (Mesh α) → List (Mesh α) := fun ms =>
      ms.map fun m =>
        if m.enabled = true ∨ shrinkProgress < 1 then
          { m with
            scaling :=
              match m.originalScaling with
              | some o => (o.1 * scale, o.2.1 * scale, o.2.2 * scale)
              | none => (scale, scale, scale)
            visibility := if shrinkProgress < 1 then 1 else 0 }
        else m
    match FURNITURE_OPTIONS.getD w.currentFurnitureIndex none with
    | some FurnKey.furniture1 => { w with furniture1 := fade w.furniture1 }
    | some FurnKey.furniture2 => { w with furniture2 := fade w.furniture2 }
    | some FurnKey.furniture3 => { w with furniture3 := fade w.furniture3 }
    | none => w

/-- `updateEntranceParent` from `src/main.js` lines 376-402. -/
def updateEntranceParent (pi : α) (w : World α) : World α :=
  match w.camera, w.entranceImage with
  | some cam, some img =>
    let quadrant := getQuadrant pi cam.alpha
    if w.lastEntranceQuadrant = some quadrant then w
    else
      let w1 := { w with lastEntranceQuadrant := some quadrant }
      let targetNode : Option ℕ :=
        if quadrant = 1 ∨ quadrant = 4 then w.entranceNodeHigh
        else if quadrant = 2 ∨ quadrant = 3 then w.entranceNodeLow
        else none
      match targetNode with
      | some n =>
        let img1 := { img with linkedNode := some n, linkOffsetY := (-25 : α), linkOffsetX := 65 }
        { w1 with entranceImage := some img1 }
      | none => w1
  | _, _ => w

/-- Tail of `updateCameraFromScroll` after the wall-visibility edge update
(`src/main.js` lines 499-522): entrance-marker update, section-4 sun and
furniture transitions, and the idle-rotation override (`camera.alpha +=
IDLE_ROTATION_SPEED` after the 10 s timeout, only for `progress >= 0.33`). -/
def frameTail (pi now progress : α) (w5 : World α) : World α :=
  let w6 := updateEntranceParent pi w5
  let w7 := updateSunPathTransition progress w6
  let w8 := updateFurnitureFade progress w7
  if progress ≥ 0.33 then
    if now - w8.lastInteractionTime > IDLE_TIMEOUT then
      { w8 with
        isIdleRotating := true
        camera := w8.camera.map fun c => { c with alpha := c.alpha + IDLE_ROTATION_SPEED } }
    else { w8 with isIdleRotating := false }
  else { w8 with isIdleRotating := false }

/-- `updateCameraFromScroll` from `src/main.js` lines 405-523.  The DOM
geometry part (lines 408-420) produces the scroll `progress` signal, which is
passed in as an argument; `Date.now()` is the `now` argument.  The three
regime branches (lines 445-474) mutate `transitionTargetAlpha` and then
`camera.alpha` (lerping toward the just-stored target when it is non-null);
here `target0` is the captured-or-kept target of the transition branch,
`target2` the stored target and `alpha2` the new azimuth, with
`Option.elim` playing the role of the `!== null` guard.  The code after the
wall-visibility edge is `frameTail`.  A `none` result models a thrown
TypeError (never actually reached, see `updateCameraFromScroll_char`). -/
def updateCameraFromScroll (pi : α) (tan : α → α) (now progress : α) (w : World α) :
    Option (World α) :=
  match w.camera with
  | none => some w
  | some cam =>
    let transitionEnd : α := 0.33
    let transitionProgress := clamp (progress / transitionEnd) 0 1
    let targetBeta := lerp BETA_TOP_DOWN (BETA_ANGLED pi) transitionProgress
    let targetFov := lerp FOV_ORTHO FOV_PERSPECTIVE transitionProgress
    let newBeta := lerp cam.beta targetBeta 0.08
    let newFov := lerp cam.fov targetFov 0.08
    let newRadius := APPARENT_SIZE_CONSTANT tan / tan (newFov / 2)
    let cam1 := { cam with lowerBetaLimit := newBeta, upperBetaLimit := newBeta, beta := newBeta }
    let target0 : Option α :=
      if w.lastTransitionProgress < 0.1 ∧ w.transitionTargetAlpha = none then
        some (snapToNearest pi (snapToNearest pi cam1.alpha (STRAIGHT_ANGLES pi))
          (QUADRANT_CENTERS pi))
      else w.transitionTargetAlpha
    let target2 : Option α :=
      if transitionProgress < 0.1 then none
      else if transitionProgress < 1 then target0
      else none
    let alpha2 : α :=
      if transitionProgress < 0.1 then
        lerp cam1.alpha (snapToNearest pi cam1.alpha (STRAIGHT_ANGLES pi)) 0.08
      else if transitionProgress < 1 then
        target0.elim cam1.alpha fun t => lerp cam1.alpha t 0.08
      else cam1.alpha
    let cam2 := { cam1 with alpha := alpha2 }
    let cam3 := { cam2 with
      fov := newFov
      lowerRadiusLimit := newRadius
      upperRadiusLimit := newRadius
      radius := newRadius
      minZ := max 0.1 (newRadius * 0.01) }
    let wasOrthoView := w.isOrthoView
    let isOrthoViewNew : Bool := decide (transitionProgress < 0.1)
    let w4 := { w with
      camera := some cam3
      transitionTargetAlpha := target2
      lastTransitionProgress := transitionProgress
      isOrthoView := isOrthoViewNew }
    let w5opt := if isOrthoViewNew ≠ wasOrthoView then updateWallVisibilityForMode pi w4 else some w4
    match w5opt with
    | none => none
    | some w5 => some (frameTail pi now progress w5)

/-- `resetIdleTimer` from `src/main.js` lines 832-834, fired by any
qualifying interaction event. -/
def resetIdleTimer (now : α) (w : World α) : World α :=
  { w with lastInteractionTime := now }

/-- Iterated per-frame update (`n` consecutive frames with the same scroll
progress and clock reading). -/
def frameIter (pi : α) (tan : α → α) (now progress : α) : ℕ → World α → Option (World α)
  | 0, w => some w
  | n + 1, w => (updateCameraFromScroll pi tan now progress w).bind (frameIter pi tan now progress n)

/-- The camera constructed in `createScene` (`src/main.js` lines 587-605). -/
def initialCamera (pi : α) (tan : α → α) : Camera α :=
  let initialRadius := APPARENT_SIZE_CONSTANT tan / tan (FOV_ORTHO / 2)
  { alpha := pi / 2
    beta := BETA_TOP_DOWN
    fov := FOV_ORTHO
    radius := initialRadius
    lowerBetaLimit := BETA_TOP_DOWN
    upperBetaLimit := BETA_TOP_DOWN
    lowerRadiusLimit := initialRadius
    upperRadiusLimit := initialRadius
    minZ := 0.1 }

/-- The module-level state right after the script's top-level declarations
run (`src/main.js` lines 9-66, 370-373): `camera = null`,
`isOrthoView = true`, `isToggleMode = false`, everything else empty;
`t0` is the `Date.now()` captured at line 18. -/
def initialWorld (t0 : α) : World α :=
  { camera := none
    wallNorth := []
    wallSouth := []
    wallEast := []
    wallWest := []
    entranceNodeHigh := none
    entranceNodeLow := none
    entranceImage := none
    lastInteractionTime := t0
    isIdleRotating := false
    isToggleMode := false
    accentMaterial := none
    accent2Material := none
    whiteMaterial := none
    originalAccentEmissive := none
    originalAccent2Emissive := none
    originalWhiteEmissive := none
    blendedTextureWhite := none
    blendedTextureAccent := none
    blendedTextureAccent2 := none
    currentFurnitureIndex := 0
    furniture1 := []
    furniture2 := []
    furniture3 := []
    transitionTargetAlpha := none
    lastTransitionProgress := 0
    isOrthoView := true
    lastEntranceQuadrant := none }

/-- The states reachable by the program from the initial module state: the
load phase creates the camera (`createScene` line 590) and populates
registries without touching the camera reference or the view-mode flag
(`envLoad`), and the event/frame phase runs the per-frame update, the
`toggleMode` pick handler, the furniture-cycle button and the idle-timer
reset handlers. -/
inductive Reachable (pi : α) (tan : α → α) (t0 : α) : World α → Prop
  | init : Reachable pi tan t0 (initialWorld t0)
  | createCamera (w : World α) :
      Reachable pi tan t0 w →
      Reachable pi tan t0 { w with camera := some (initialCamera pi tan) }
  | envLoad (w w' : World α) :
      Reachable pi tan t0 w →
      w'.camera = w.camera →
      w'.isOrthoView = w.isOrthoView →
      Reachable pi tan t0 w'
  | frame (w w' : World α) (now progress : α) :
      Reachable pi tan t0 w →
      updateCameraFromScroll pi tan now progress w = some w' →
      Reachable pi tan t0 w'
  | toggle (w w' : World α) :
      Reachable pi tan t0 w →
      toggleMode pi w = some w' →
      Reachable pi tan t0 w'
  | cycle (w : World α) :
      Reachable pi tan t0 w →
      Reachable pi tan t0 (cycleFurniture w)
  | resetIdle (w : World α) (now : α) :
      Reachable pi tan t0 w →
      Reachable pi tan t0 (resetIdleTimer now w)

/-- The states reachable from a start state by the two user actions named in
the furniture claim: furniture cycling and toggle-mode flips. -/
inductive FurnReachable (pi : α) (w0 : World α) : World α → Prop
  | refl : FurnReachable pi w0 w0
  | cycle (w : World α) :
      FurnReachable pi w0 w →
      FurnReachable pi w0 (cycleFurniture w)
  | toggle (w w' : World α) :
      FurnReachable pi w0 w →
      toggleMode pi w = some w' →
      FurnReachable pi w0 w'

/-- All meshes of one furniture set are disabled. -/
def furnMeshesHidden (ms : List (Mesh α)) : Prop :=
  ∀ m ∈ ms, m.enabled = false

/-- At least one mesh of the set is enabled ("the set is visible"). -/
def furnSetOn (ms : List (Mesh α)) : Prop :=
  ∃ m ∈ ms, m.enabled = true

/-- Strengthened furniture invariant: whenever some mesh of a set is
enabled, toggle mode is on and that set is the currently selected
`FURNITURE_OPTIONS` entry. -/
def furnInv (v : World α) : Prop :=
  (furnSetOn v.furniture1 → v.isToggleMode = true ∧
    FURNITURE_OPTIONS.getD v.currentFurnitureIndex none = some FurnKey.furniture1) ∧
  (furnSetOn v.furniture2 → v.isToggleMode = true ∧
    FURNITURE_OPTIONS.getD v.currentFurnitureIndex none = some FurnKey.furniture2) ∧
  (furnSetOn v.furniture3 → v.isToggleMode = true ∧
    FURNITURE_OPTIONS.getD v.currentFurnitureIndex none = some FurnKey.furniture3)

/-- The circular distance of the specification:
`min (|d|, 2π - |d|)` between a (normalized) angle `n` and a candidate `c`. -/
def circDistSpec (pi n c : α) : α :=
  min |n - c| (2 * pi - |n - c|)

/-- The module-level variables of `src/main.js` that a world-updating
function leaves untouched when it only writes meshes, materials or marker
state: the camera reference, the transition bookkeeping, the idle-rotation
bookkeeping and the mode flags. -/
def PreservesCore (w w' : World α) : Prop :=
  w'.camera = w.camera ∧
  w'.transitionTargetAlpha = w.transitionTargetAlpha ∧
  w'.lastTransitionProgress = w.lastTransitionProgress ∧
  w'.isIdleRotating = w.isIdleRotating ∧
  w'.lastInteractionTime = w.lastInteractionTime ∧
  w'.isOrthoView = w.isOrthoView ∧
  w'.isToggleMode = w.isToggleMode ∧
  w'.currentFurnitureIndex = w.currentFurnitureIndex

/-- An IEEE-754 double as far as the scroll-progress computation can observe
it: a finite value (JS doubles are rationals), `NaN`, or a signed infinity. -/
inductive JsNum
  | nan
  | inf
  | ninf
  | fin (q : ℚ)
deriving DecidableEq

/-- JavaScript division `a / b`, with the IEEE-754 special results for a zero
divisor: `0/0 = NaN`, `a/0 = ±Infinity` by the sign of `a`. -/
def jsDiv (a b : ℚ) : JsNum :=
  if b = 0 then
    if a = 0 then JsNum.nan
    else if 0 < a then JsNum.inf
    else JsNum.ninf
  else JsNum.fin (a / b)

/-- `Math.max(x, c)` for a finite second argument: `NaN` is propagated. -/
def jsMax : JsNum → ℚ → JsNum
  | JsNum.nan, _ => JsNum.nan
  | JsNum.inf, _ => JsNum.inf
  | JsNum.ninf, c => JsNum.fin c
  | JsNum.fin q, c => JsNum.fin (max q c)

/-- `Math.min(x, c)` for a finite second argument: `NaN` is propagated. -/
def jsMin : JsNum → ℚ → JsNum
  | JsNum.nan, _ => JsNum.nan
  | JsNum.inf, c => JsNum.fin c
  | JsNum.ninf, _ => JsNum.ninf
  | JsNum.fin q, c => JsNum.fin (min q c)

/-- The scroll-progress computation of `src/main.js` lines 418-420 with full
IEEE-754 semantics:
`progress = clamp(scrolledAmount / scrollableDistance, 0, 1)` where
`clamp(v, lo, hi) = Math.min(Math.max(v, lo), hi)`. -/
def scrollProgressJs (scrolledAmount scrollableDistance : ℚ) : JsNum :=
  jsMin (jsMax (jsDiv scrolledAmount scrollableDistance) 0) 1

/-- `Math.round`: round half toward positive infinity. -/
def roundJs (x : ℚ) : ℤ := ⌊x + 1 / 2⌋

/-- The label computed by `updateSunPathTitle` (`src/main.js` lines 807-822)
and written to the title element; fetching/writing the DOM element is the
external boundary. -/
def sunPathLabel (sliderValue : ℚ) : String :=
  let startHour : ℚ := 6
  let totalHours : ℚ := 15
  let hourIncrement := totalHours / 39
  let hour := startHour + (sliderValue - 1) * hourIncrement
  let h := roundJs hour
  let ampm := if h ≥ 12 then "PM" else "AM"
  let h12 := if h > 12 then h - 12 else if h = 0 then 12 else h
  "Sun path - " ++ toString h12 ++ ampm

/-- Modelled from the claim's words (not from the source): the label that
would result from the formula `hour = 6 + index * (15/39)` stated in the
claim, with the same rounding and 12-hour formatting. -/
def sunPathLabelClaimFormula (sliderValue : ℚ) : String :=
  let hour := 6 + sliderValue * (15 / 39)
  let h := roundJs hour
  let ampm := if h ≥ 12 then "PM" else "AM"
  let h12 := if h > 12 then h - 12 else if h = 0 then 12 else h
  "Sun path - " ++ toString h12 ++ ampm

/-- The label produced for each slider value 1..40, tabulated by hand from
`hour = 6 + (index - 1) * 15/39` rounded to the nearest whole hour and
formatted as 12-hour time (the table against which `sunPathLabel` is
checked). -/
def sunPathExpectedLabel : ℕ → String
  | 1 => "Sun path - 6AM"
  | 2 => "Sun path - 6AM"
  | 3 => "Sun path - 7AM"
  | 4 => "Sun path - 7AM"
  | 5 => "Sun path - 8AM"
  | 6 => "Sun path - 8AM"
  | 7 => "Sun path - 8AM"
  | 8 => "Sun path - 9AM"
  | 9 => "Sun path - 9AM"
  | 10 => "Sun path - 9AM"
  | 11 => "Sun path - 10AM"
  | 12 => "Sun path - 10AM"
  | 13 => "Sun path - 11AM"
  | 14 => "Sun path - 11AM"
  | 15 => "Sun path - 11AM"
  | 16 => "Sun path - 12PM"
  | 17 => "Sun path - 12PM"
  | 18 => "Sun path - 1PM"
  | 19 => "Sun path - 1PM"
  | 20 => "Sun path - 1PM"
  | 21 => "Sun path - 2PM"
  | 22 => "Sun path - 2PM"
  | 23 => "Sun path - 2PM"
  | 24 => "Sun path - 3PM"
  | 25 => "Sun path - 3PM"
  | 26 => "Sun path - 4PM"
  | 27 => "Sun path - 4PM"
  | 28 => "Sun path - 4PM"
  | 29 => "Sun path - 5PM"
  | 30 => "Sun path - 5PM"
  | 31 => "Sun path - 6PM"
  | 32 => "Sun path - 6PM"
  | 33 => "Sun path - 6PM"
  | 34 => "Sun path - 7PM"
  | 35 => "Sun path - 7PM"
  | 36 => "Sun path - 7PM"
  | 37 => "Sun path - 8PM"
  | 38 => "Sun path - 8PM"
  | 39 => "Sun path - 9PM"
  | 40 => "Sun path - 9PM"
  | _ => ""

/-! ### Basic lemmas about `clamp`, `lerp` and the transition progress -/

theorem clamp_le_right (v lo hi : α) : clamp v lo hi ≤ hi := min_le_right _ _

theorem left_le_clamp (v : α) {lo hi : α} (h : lo ≤ hi) : lo ≤ clamp v lo hi :=
  le_min (le_max_right _ _) h

theorem clamp_eq_of_ge {v hi : α} (lo : α) (hv : hi ≤ v) (h : lo ≤ hi) :
    clamp v lo hi = hi := by
  unfold clamp
  rw [max_eq_left (le_trans h hv), min_eq_right hv]

theorem clamp_eq_self {v lo hi : α} (h1 : lo ≤ v) (h2 : v ≤ hi) : clamp v lo hi = v := by
  unfold clamp
  rw [max_eq_left h1, min_eq_left h2]

theorem clamp_lt_of_lt {v lo hi : α} (h0 : lo < hi) (hv : v < hi) : clamp v lo hi < hi :=
  lt_of_le_of_lt (min_le_left _ _) (max_lt hv h0)

theorem transitionProgress_eq_one {p : α} (h : (0.33 : α) ≤ p) :
    clamp (p / (0.33 : α)) 0 1 = 1 := by
  apply clamp_eq_of_ge
  · rw [le_div_iff₀ (by norm_num : (0 : α) < 0.33)]
    linarith
  · norm_num

theorem transitionProgress_lt_one {p : α} (h : p < (0.33 : α)) :
    clamp (p / (0.33 : α)) 0 1 < 1 := by
  apply clamp_lt_of_lt (by norm_num)
  rw [div_lt_one (by norm_num : (0 : α) < 0.33)]
  exact h

/-! ### Characterization of `snapToNearest` -/

theorem snap_diff_eq (pi n c : α) :
    (if |n - c| > pi then 2 * pi - |n - c| else |n - c|) = circDistSpec pi n c := by
  unfold circDistSpec
  rcases le_or_lt |n - c| pi with h | h
  · rw [if_neg (not_lt.2 h), min_eq_left (by linarith)]
  · rw [if_pos h, min_eq_right (by linarith)]

theorem snapStep_eq (pi n r c : α) :
    snapStep pi n (r, some (circDistSpec pi n r)) c =
      if circDistSpec pi n c < circDistSpec pi n r then (c, some (circDistSpec pi n c))
      else (r, some (circDistSpec pi n r)) := by
  unfold snapStep
  simp only [snap_diff_eq]

theorem snapFold_char (pi n : α) (rest : List α) :
    ∀ r : α,
      ∃ r', rest.foldl (snapStep pi n) (r, some (circDistSpec pi n r)) =
          (r', some (circDistSpec pi n r')) ∧
        (circDistSpec pi n r' ≤ circDistSpec pi n r ∧
          ∀ x ∈ rest, circDistSpec pi n r' ≤ circDistSpec pi n x) ∧
        (r' = r ∨
          ∃ l₁ l₂, rest = l₁ ++ r' :: l₂ ∧ circDistSpec pi n r' < circDistSpec pi n r ∧
            ∀ x ∈ l₁, circDistSpec pi n r' < circDistSpec pi n x) := by
  induction rest with
  | nil =>
    intro r
    exact ⟨r, by simp, ⟨le_refl _, by simp⟩, Or.inl rfl⟩
  | cons c cs ih =>
    intro r
    rw [List.foldl_cons, snapStep_eq]
    rcases lt_or_ge (circDistSpec pi n c) (circDistSpec pi n r) with h | h
    · rw [if_pos h]
      obtain ⟨r', heq, ⟨hle, hmin⟩, hcase⟩ := ih c
      refine ⟨r', heq, ⟨le_of_lt (lt_of_le_of_lt hle h), ?_⟩, ?_⟩
      · intro x hx
        rcases List.mem_cons.1 hx with rfl | hx
        · exact hle
        · exact hmin x hx
      · rcases hcase with rfl | ⟨l₁, l₂, hsplit, hlt, hl₁⟩
        · exact Or.inr ⟨[], cs, by simp, h, by simp⟩
        · refine Or.inr ⟨c :: l₁, l₂, by rw [hsplit]; rfl, lt_of_lt_of_le hlt (le_of_lt h), ?_⟩
          intro x hx
          rcases List.mem_cons.1 hx with rfl | hx
          · exact hlt
          · exact hl₁ x hx
    · rw [if_neg (not_lt.2 h)]
      obtain ⟨r', heq, ⟨hle, hmin⟩, hcase⟩ := ih r
      refine ⟨r', heq, ⟨hle, ?_⟩, ?_⟩
      · intro x hx
        rcases List.mem_cons.1 hx with rfl | hx
        · exact le_trans hle h
        · exact hmin x hx
      · rcases hcase with rfl | ⟨l₁, l₂, hsplit, hlt, hl₁⟩
        · exact Or.inl rfl
        · refine Or.inr ⟨c :: l₁, l₂, by rw [hsplit]; rfl, hlt, ?_⟩
          intro x hx
          rcases List.mem_cons.1 hx with rfl | hx
          · exact lt_of_lt_of_le hlt h
          · exact hl₁ x hx

theorem snapToNearest_char (pi alpha a : α) (rest : List α) :
    (snapToNearest pi alpha (a :: rest) ∈ a :: rest) ∧
      (∀ c ∈ a :: rest,
        circDistSpec pi (normalizeAlpha pi alpha) (snapToNearest pi alpha (a :: rest)) ≤
          circDistSpec pi (normalizeAlpha pi alpha) c) ∧
      ∃ l₁ l₂, a :: rest = l₁ ++ snapToNearest pi alpha (a :: rest) :: l₂ ∧
        ∀ c ∈ l₁,
          circDistSpec pi (normalizeAlpha pi alpha) (snapToNearest pi alpha (a :: rest)) <
            circDistSpec pi (normalizeAlpha pi alpha) c := by
  set n := normalizeAlpha pi alpha with hn
  have hfirst : snapStep pi n ((a :: rest).headD 0, none) a = (a, some (circDistSpec pi n a)) := by
    unfold snapStep
    simp only [snap_diff_eq, List.headD_cons]
  have hfold :
      snapToNearest pi alpha (a :: rest) =
        (rest.foldl (snapStep pi n) (a, some (circDistSpec pi n a))).1 := by
    unfold snapToNearest
    rw [← hn, List.foldl_cons, hfirst]
  obtain ⟨r', heq, ⟨hle, hmin⟩, hcase⟩ := snapFold_char pi n rest a
  have hr : snapToNearest pi alpha (a :: rest) = r' := by rw [hfold, heq]
  rw [hr]
  rcases hcase with rfl | ⟨l₁, l₂, hsplit, hlt, hl₁⟩
  · refine ⟨List.mem_cons_self _ _, ?_, [], rest, rfl, by simp⟩
    intro c hc
    rcases List.mem_cons.1 hc with rfl | hc
    · exact le_refl _
    · exact hmin c hc
  · have hmem : r' ∈ a :: rest := by
      rw [hsplit]
      exact List.mem_cons_of_mem _ (List.mem_append_right _ (List.mem_cons_self _ _))
    refine ⟨hmem, ?_, a :: l₁, l₂, by rw [hsplit]; rfl, ?_⟩
    · intro c hc
      rcases List.mem_cons.1 hc with rfl | hc
      · exact hle
      · exact hmin c hc
    · intro c hc
      rcases List.mem_cons.1 hc with rfl | hc
      · exact hlt
      · exact hl₁ c hc

theorem normalizeAlpha_of_range {pi c : α} (hpi : 0 < pi) (h0 : 0 ≤ c) (h2 : c < 2 * pi) :
    normalizeAlpha pi c = c := by
  unfold normalizeAlpha jsMod jsTrunc
  have h2pi : (0 : α) < 2 * pi := by linarith
  have hdiv0 : 0 ≤ c / (2 * pi) := div_nonneg h0 (le_of_lt h2pi)
  have hdiv1 : c / (2 * pi) < 1 := (div_lt_one h2pi).2 h2
  rw [if_pos hdiv0]
  have hfloor : ⌊c / (2 * pi)⌋ = 0 := by
    rw [Int.floor_eq_zero_iff]
    exact ⟨hdiv0, hdiv1⟩
  rw [hfloor]
  simp only [Int.cast_zero, mul_zero, sub_zero]
  rw [if_neg (not_lt.2 h0)]

theorem circDistSpec_nonneg {pi n c : α} (hn0 : 0 ≤ n) (hn2 : n < 2 * pi)
    (hc0 : 0 ≤ c) (hc2 : c < 2 * pi) : 0 ≤ circDistSpec pi n c := by
  unfold circDistSpec
  have habs : |n - c| < 2 * pi := abs_sub_lt_iff.2 ⟨by linarith, by linarith⟩
  exact le_min (abs_nonneg _) (by linarith)

theorem circDistSpec_self {pi c : α} (hpi : 0 < pi) : circDistSpec pi c c = 0 := by
  unfold circDistSpec
  rw [sub_self, abs_zero, sub_zero]
  exact min_eq_left (by linarith)

theorem circDistSpec_eq_zero {pi n c : α} (habs : |n - c| < 2 * pi)
    (h : circDistSpec pi n c = 0) : n = c := by
  unfold circDistSpec at h
  rcases min_eq_iff.1 h with ⟨h1, _⟩ | ⟨h1, _⟩
  · exact sub_eq_zero.1 (abs_eq_zero.1 h1)
  · exfalso
    linarith

/-- C8 (amended).  For every angle and non-empty candidate list,
`snapToNearest` returns a member of the list that minimizes the circular
distance `min (|d|, 2π - |d|)` to the normalized angle, with ties broken in
favor of the first candidate achieving the minimum.  The claim's final part
(an input angle exactly equal to a candidate is returned unchanged) holds
once all candidates lie in `[0, 2π)` — the range the program always uses —
but is false for arbitrary candidate lists (see the counterexample). -/
theorem snapToNearest_spec_amended (pi alpha : α) (cs : List α) (hne : cs ≠ []) :
    snapToNearest pi alpha cs ∈ cs ∧
      (∀ c ∈ cs,
        circDistSpec pi (normalizeAlpha pi alpha) (snapToNearest pi alpha cs) ≤
          circDistSpec pi (normalizeAlpha pi alpha) c) ∧
      (∃ l₁ l₂, cs = l₁ ++ snapToNearest pi alpha cs :: l₂ ∧
        ∀ c ∈ l₁,
          circDistSpec pi (normalizeAlpha pi alpha) (snapToNearest pi alpha cs) <
            circDistSpec pi (normalizeAlpha pi alpha) c) ∧
      (0 < pi → (∀ c ∈ cs, 0 ≤ c ∧ c < 2 * pi) → ∀ c ∈ cs, alpha = c →
        snapToNearest pi alpha cs = c) := by
  match cs, hne with
  | a :: rest, _ =>
    obtain ⟨hmem, hmin, hfirst⟩ := snapToNearest_char pi alpha a rest
    refine ⟨hmem, hmin, hfirst, ?_⟩
    intro hpi hrange c hc hac
    subst hac
    have hnorm : normalizeAlpha pi alpha = alpha :=
      normalizeAlpha_of_range hpi (hrange alpha hc).1 (hrange alpha hc).2
    set r := snapToNearest pi alpha (a :: rest) with hrdef
    have hd0 : circDistSpec pi (normalizeAlpha pi alpha) alpha = 0 := by
      rw [hnorm]
      exact circDistSpec_self hpi
    have hdr : circDistSpec pi (normalizeAlpha pi alpha) r = 0 := by
      have h1 := hmin alpha hc
      rw [hd0] at h1
      have h2 : 0 ≤ circDistSpec pi (normalizeAlpha pi alpha) r := by
        rw [hnorm]
        exact circDistSpec_nonneg (hrange alpha hc).1 (hrange alpha hc).2
          (hrange r hmem).1 (hrange r hmem).2
      linarith
    rw [hnorm] at hdr
    have habs : |alpha - r| < 2 * pi := by
      have h1 := (hrange alpha hc).1
      have h2 := (hrange alpha hc).2
      have h3 := (hrange r hmem).1
      have h4 := (hrange r hmem).2
      exact abs_sub_lt_iff.2 ⟨by linarith, by linarith⟩
    exact (circDistSpec_eq_zero habs hdr).symm

/-- C8 witness: concrete evaluation of the amended theorem at `α = ℚ` with
`pi = 4` (full circle `8`), angle `2` and candidates `[0, 2, 4, 6]`. -/
theorem snapToNearest_spec_amended_witness :
    snapToNearest (4 : ℚ) 2 [0, 2, 4, 6] ∈ ([0, 2, 4, 6] : List ℚ) ∧
      snapToNearest (4 : ℚ) 2 [0, 2, 4, 6] = 2 :=
  ⟨(snapToNearest_spec_amended (4 : ℚ) 2 [0, 2, 4, 6] (by decide)).1,
    (snapToNearest_spec_amended (4 : ℚ) 2 [0, 2, 4, 6] (by decide)).2.2.2
      (by norm_num) (by intro c hc; fin_cases hc <;> norm_num) 2 (by norm_num) rfl⟩

/-- C8 counterexample.  For the input angle `10π`, which is exactly equal to
the first candidate of the list `[10π, 100π]`, `snapToNearest` returns the
other candidate `100π`: the "code distance" `2π - |d|` is negative for
candidates farther than `2π` from the normalized angle, so an exactly-equal
candidate need not win on arbitrary candidate lists. -/
theorem snapToNearest_exact_counterexample :
    (10 : ℝ) * Real.pi ∈ [10 * Real.pi, 100 * Real.pi] ∧
      snapToNearest Real.pi (10 * Real.pi) [10 * Real.pi, 100 * Real.pi] = 100 * Real.pi ∧
      (100 : ℝ) * Real.pi ≠ 10 * Real.pi := by
  have hpi := Real.pi_pos
  refine ⟨List.mem_cons_self _ _, ?_, ?_⟩
  · have hnorm : normalizeAlpha Real.pi (10 * Real.pi) = 0 := by
      unfold normalizeAlpha jsMod jsTrunc
      have h5 : 10 * Real.pi / (2 * Real.pi) = 5 := by
        rw [div_eq_iff (by positivity : (2 : ℝ) * Real.pi ≠ 0)]
        ring
      rw [h5]
      norm_num
      have h10 : 2 * Real.pi * 5 = 10 * Real.pi := by ring
      rw [h10, if_neg (lt_irrefl _), sub_self]
    have h1 : |(0 : ℝ) - 10 * Real.pi| = 10 * Real.pi := by
      rw [zero_sub, abs_neg, abs_of_nonneg (by positivity)]
    have h2 : |(0 : ℝ) - 100 * Real.pi| = 100 * Real.pi := by
      rw [zero_sub, abs_neg, abs_of_nonneg (by positivity)]
    have e1 : snapStep Real.pi 0 (10 * Real.pi, none) (10 * Real.pi) =
        (10 * Real.pi, some (2 * Real.pi - 10 * Real.pi)) := by
      unfold snapStep
      dsimp only
      rw [h1, if_pos (by linarith : 10 * Real.pi > Real.pi)]
    have e2 : snapStep Real.pi 0 (10 * Real.pi, some (2 * Real.pi - 10 * Real.pi))
        (100 * Real.pi) = (100 * Real.pi, some (2 * Real.pi - 100 * Real.pi)) := by
      unfold snapStep
      dsimp only
      rw [h2, if_pos (by linarith : 100 * Real.pi > Real.pi),
        if_pos (by linarith : 2 * Real.pi - 100 * Real.pi < 2 * Real.pi - 10 * Real.pi)]
    unfold snapToNearest
    rw [hnorm]
    simp only [List.headD_cons]
    rw [List.foldl_cons, e1, List.foldl_cons, e2, List.foldl_nil]
  · intro h
    nlinarith

/-! ### Preservation lemmas for the per-frame sub-updates -/

theorem updateEntranceParent_core (pi : α) (w : World α) :
    PreservesCore w (updateEntranceParent pi w) := by
  unfold PreservesCore updateEntranceParent
  refine ⟨?_, ?_, ?_, ?_, ?_, ?_, ?_, ?_⟩ <;> (dsimp only; repeat' (first | rfl | split))

theorem updateSunPathTransition_core (progress : α) (w : World α) :
    PreservesCore w (updateSunPathTransition progress w) := by
  unfold PreservesCore updateSunPathTransition
  refine ⟨?_, ?_, ?_, ?_, ?_, ?_, ?_, ?_⟩ <;> (dsimp only; repeat' (first | rfl | split))

theorem updateFurnitureFade_core (progress : α) (w : World α) :
    PreservesCore w (updateFurnitureFade progress w) := by
  unfold PreservesCore updateFurnitureFade
  refine ⟨?_, ?_, ?_, ?_, ?_, ?_, ?_, ?_⟩ <;> (dsimp only; repeat' (first | rfl | split))

theorem updateWallVisibilityForMode_char (pi : α) (w : World α) (cam : Camera α)
    (h : w.camera = some cam) :
    ∃ w', updateWallVisibilityForMode pi w = some w' ∧ PreservesCore w w' := by
  unfold updateWallVisibilityForMode
  by_cases ho : w.isOrthoView = true
  · rw [if_pos ho]
    exact ⟨hideAllWalls w, rfl, ⟨rfl, rfl, rfl, rfl, rfl, rfl, rfl, rfl⟩⟩
  · rw [if_neg ho]
    by_cases ht : w.isToggleMode = true
    · rw [if_pos ht, h]
      exact ⟨updateMeshVisibility (getQuadrant pi cam.alpha) w, rfl,
        ⟨rfl, rfl, rfl, rfl, rfl, rfl, rfl, rfl⟩⟩
    · rw [if_neg ht]
      exact ⟨showAllWalls w, rfl, ⟨rfl, rfl, rfl, rfl, rfl, rfl, rfl, rfl⟩⟩

theorem updateAccentEmission_core (enabled : Bool) (w : World α) :
    PreservesCore w (updateAccentEmission enabled w) := by
  unfold PreservesCore updateAccentEmission
  refine ⟨?_, ?_, ?_, ?_, ?_, ?_, ?_, ?_⟩ <;> (dsimp only; repeat' (first | rfl | split))

theorem updateWallVisibilityForMode_core (pi : α) (w w' : World α)
    (h : updateWallVisibilityForMode pi w = some w') : PreservesCore w w' := by
  unfold updateWallVisibilityForMode at h
  by_cases ho : w.isOrthoView = true
  · rw [if_pos ho] at h
    simp only [Option.some.injEq] at h
    subst h
    exact ⟨rfl, rfl, rfl, rfl, rfl, rfl, rfl, rfl⟩
  · rw [if_neg ho] at h
    by_cases ht : w.isToggleMode = true
    · rw [if_pos ht] at h
      rcases hc : w.camera with _ | cam
      · rw [hc] at h
        exact absurd h (by simp)
      · rw [hc] at h
        simp only [Option.some.injEq] at h
        subst h
        exact ⟨rfl, rfl, rfl, rfl, rfl, rfl, rfl, rfl⟩
    · rw [if_neg ht] at h
      simp only [Option.some.injEq] at h
      subst h
      exact ⟨rfl, rfl, rfl, rfl, rfl, rfl, rfl, rfl⟩

theorem toggleMode_shape (pi : α) (w w' : World α) (h : toggleMode pi w = some w') :
    ∃ v : World α, w' = updateFurnitureVisibility v ∧
      v.isToggleMode = !w.isToggleMode ∧
      v.camera = w.camera ∧
      v.isOrthoView = w.isOrthoView ∧
      v.currentFurnitureIndex = w.currentFurnitureIndex := by
  unfold toggleMode at h
  dsimp only at h
  have hacc : PreservesCore ({ w with isToggleMode := !w.isToggleMode } : World α)
      (updateAccentEmission (!w.isToggleMode)
        ({ w with isToggleMode := !w.isToggleMode } : World α)) :=
    updateAccentEmission_core _ _
  rcases hwall : updateWallVisibilityForMode pi
      (updateAccentEmission (!w.isToggleMode)
        ({ w with isToggleMode := !w.isToggleMode } : World α)) with _ | w3
  · rw [hwall] at h
    exact absurd h (by simp)
  · rw [hwall] at h
    simp only [Option.some.injEq] at h
    have hwcore := updateWallVisibilityForMode_core pi _ _ hwall
    refine ⟨w3, h.symm, ?_, ?_, ?_, ?_⟩
    · rw [hwcore.2.2.2.2.2.2.1, hacc.2.2.2.2.2.2.1]
    · rw [hwcore.1, hacc.1]
    · rw [hwcore.2.2.2.2.2.1, hacc.2.2.2.2.2.1]
    · rw [hwcore.2.2.2.2.2.2.2, hacc.2.2.2.2.2.2.2]

theorem PreservesCore.trans {w1 w2 w3 : World α} (h1 : PreservesCore w1 w2)
    (h2 : PreservesCore w2 w3) : PreservesCore w1 w3 :=
  ⟨h2.1.trans h1.1, h2.2.1.trans h1.2.1, h2.2.2.1.trans h1.2.2.1,
    h2.2.2.2.1.trans h1.2.2.2.1, h2.2.2.2.2.1.trans h1.2.2.2.2.1,
    h2.2.2.2.2.2.1.trans h1.2.2.2.2.2.1, h2.2.2.2.2.2.2.1.trans h1.2.2.2.2.2.2.1,
    h2.2.2.2.2.2.2.2.trans h1.2.2.2.2.2.2.2⟩

theorem updateWallVisibilityForMode_ne_none (pi : α) (w : World α)
    (h : w.camera ≠ none) : updateWallVisibilityForMode pi w ≠ none := by
  unfold updateWallVisibilityForMode
  by_cases ho : w.isOrthoView = true
  · rw [if_pos ho]
    simp
  · rw [if_neg ho]
    by_cases ht : w.isToggleMode = true
    · rw [if_pos ht]
      rcases hc : w.camera with _ | cam
      · exact absurd hc h
      · simp
    · rw [if_neg ht]
      simp

theorem frameTail_char (pi now progress : α) (v : World α) (cam3 : Camera α)
    (h : v.camera = some cam3) :
    ∃ cam', (frameTail pi now progress v).camera = some cam' ∧
      (frameTail pi now progress v).transitionTargetAlpha = v.transitionTargetAlpha ∧
      (frameTail pi now progress v).lastTransitionProgress = v.lastTransitionProgress ∧
      (frameTail pi now progress v).lastInteractionTime = v.lastInteractionTime ∧
      (frameTail pi now progress v).isToggleMode = v.isToggleMode ∧
      (frameTail pi now progress v).isOrthoView = v.isOrthoView ∧
      cam'.beta = cam3.beta ∧ cam'.fov = cam3.fov ∧ cam'.radius = cam3.radius ∧
      cam'.lowerBetaLimit = cam3.lowerBetaLimit ∧ cam'.upperBetaLimit = cam3.upperBetaLimit ∧
      cam'.lowerRadiusLimit = cam3.lowerRadiusLimit ∧
      cam'.upperRadiusLimit = cam3.upperRadiusLimit ∧ cam'.minZ = cam3.minZ ∧
      (progress ≥ 0.33 ∧ now - v.lastInteractionTime > IDLE_TIMEOUT →
        cam'.alpha = cam3.alpha + IDLE_ROTATION_SPEED ∧
        (frameTail pi now progress v).isIdleRotating = true) ∧
      (¬(progress ≥ 0.33 ∧ now - v.lastInteractionTime > IDLE_TIMEOUT) →
        cam'.alpha = cam3.alpha ∧ (frameTail pi now progress v).isIdleRotating = false) := by
  unfold frameTail
  dsimp only
  set W8 := updateFurnitureFade progress (updateSunPathTransition progress
    (updateEntranceParent pi v)) with hW8
  have hc : PreservesCore v W8 :=
    ((updateEntranceParent_core pi v).trans
      (updateSunPathTransition_core progress (updateEntranceParent pi v))).trans
      (updateFurnitureFade_core progress
        (updateSunPathTransition progress (updateEntranceParent pi v)))
  have hcam8 : W8.camera = some cam3 := by rw [hc.1, h]
  have hlast8 : W8.lastInteractionTime = v.lastInteractionTime := hc.2.2.2.2.1
  rw [hlast8]
  by_cases hp : progress ≥ (0.33 : α)
  · rw [if_pos hp]
    by_cases hto : now - v.lastInteractionTime > IDLE_TIMEOUT
    · rw [if_pos hto]
      refine ⟨{ cam3 with alpha := cam3.alpha + IDLE_ROTATION_SPEED }, ?_, ?_, ?_, ?_, ?_, ?_,
        rfl, rfl, rfl, rfl, rfl, rfl, rfl, rfl, fun _ => ⟨rfl, rfl⟩,
        fun hn => absurd ⟨hp, hto⟩ hn⟩
      · show Option.map _ W8.camera = _
        rw [hcam8, Option.map_some']
      · exact hc.2.1
      · exact hc.2.2.1
      · first
        | exact hlast8
        | rfl
      · exact hc.2.2.2.2.2.2.1
      · exact hc.2.2.2.2.2.1
    · rw [if_neg hto]
      refine ⟨cam3, hcam8, ?_, ?_, ?_, ?_, ?_,
        rfl, rfl, rfl, rfl, rfl, rfl, rfl, rfl,
        fun hy => absurd hy.2 hto, fun _ => ⟨rfl, rfl⟩⟩
      · exact hc.2.1
      · exact hc.2.2.1
      · first
        | exact hlast8
        | rfl
      · exact hc.2.2.2.2.2.2.1
      · exact hc.2.2.2.2.2.1
  · rw [if_neg hp]
    refine ⟨cam3, hcam8, ?_, ?_, ?_, ?_, ?_,
      rfl, rfl, rfl, rfl, rfl, rfl, rfl, rfl,
      fun hy => absurd hy.1 hp, fun _ => ⟨rfl, rfl⟩⟩
    · exact hc.2.1
    · exact hc.2.2.1
    · first
      | exact hlast8
      | rfl
    · exact hc.2.2.2.2.2.2.1
    · exact hc.2.2.2.2.2.1

/-- Symbolic execution of one frame of `updateCameraFromScroll` when the
camera exists: the update never throws, the camera stays non-null, and all
the state the claims are about is given in closed form, split along the three
azimuth regimes and the idle-rotation branch. -/
theorem updateCameraFromScroll_char (pi : α) (tan : α → α) (now progress : α)
    (w : World α) (cam : Camera α) (h : w.camera = some cam) :
    ∃ w' cam', updateCameraFromScroll pi tan now progress w = some w' ∧
      w'.camera = some cam' ∧
      w'.lastTransitionProgress = clamp (progress / 0.33) 0 1 ∧
      w'.lastInteractionTime = w.lastInteractionTime ∧
      w'.isToggleMode = w.isToggleMode ∧
      w'.isOrthoView = decide (clamp (progress / 0.33) 0 1 < 0.1) ∧
      cam'.beta =
        lerp cam.beta (lerp BETA_TOP_DOWN (BETA_ANGLED pi) (clamp (progress / 0.33) 0 1))
          0.08 ∧
      cam'.fov =
        lerp cam.fov (lerp FOV_ORTHO FOV_PERSPECTIVE (clamp (progress / 0.33) 0 1)) 0.08 ∧
      cam'.radius = APPARENT_SIZE_CONSTANT tan / tan (cam'.fov / 2) ∧
      cam'.lowerRadiusLimit = cam'.radius ∧
      cam'.upperRadiusLimit = cam'.radius ∧
      cam'.minZ = max 0.1 (cam'.radius * 0.01) ∧
      (clamp (progress / 0.33) 0 1 < 0.1 →
        w'.transitionTargetAlpha = none ∧
        cam'.alpha = lerp cam.alpha (snapToNearest pi cam.alpha (STRAIGHT_ANGLES pi)) 0.08 ∧
        w'.isIdleRotating = false) ∧
      (0.1 ≤ clamp (progress / 0.33) 0 1 → clamp (progress / 0.33) 0 1 < 1 →
        w.lastTransitionProgress < 0.1 → w.transitionTargetAlpha = none →
        w'.transitionTargetAlpha =
          some (snapToNearest pi (snapToNearest pi cam.alpha (STRAIGHT_ANGLES pi))
            (QUADRANT_CENTERS pi)) ∧
        cam'.alpha =
          lerp cam.alpha
            (snapToNearest pi (snapToNearest pi cam.alpha (STRAIGHT_ANGLES pi))
              (QUADRANT_CENTERS pi)) 0.08 ∧
        w'.isIdleRotating = false) ∧
      (∀ t, 0.1 ≤ clamp (progress / 0.33) 0 1 → clamp (progress / 0.33) 0 1 < 1 →
        w.transitionTargetAlpha = some t →
        w'.transitionTargetAlpha = some t ∧
        cam'.alpha = lerp cam.alpha t 0.08 ∧
        w'.isIdleRotating = false) ∧
      (0.1 ≤ clamp (progress / 0.33) 0 1 → clamp (progress / 0.33) 0 1 < 1 →
        0.1 ≤ w.lastTransitionProgress → w.transitionTargetAlpha = none →
        w'.transitionTargetAlpha = none ∧
        cam'.alpha = cam.alpha ∧
        w'.isIdleRotating = false) ∧
      (clamp (progress / 0.33) 0 1 = 1 →
        w'.transitionTargetAlpha = none ∧
        (now - w.lastInteractionTime > IDLE_TIMEOUT →
          cam'.alpha = cam.alpha + IDLE_ROTATION_SPEED ∧ w'.isIdleRotating = true) ∧
        (¬ now - w.lastInteractionTime > IDLE_TIMEOUT →
          cam'.alpha = cam.alpha ∧ w'.isIdleRotating = false)) := by
  unfold updateCameraFromScroll
  rw [h]
  dsimp only
  set tp := clamp (progress / (0.33 : α)) 0 1 with htp
  set SNAP1 := snapToNearest pi cam.alpha (STRAIGHT_ANGLES pi) with hS1
  set SNAP2 := snapToNearest pi SNAP1 (QUADRANT_CENTERS pi) with hS2
  set newBeta := lerp cam.beta (lerp BETA_TOP_DOWN (BETA_ANGLED pi) tp) 0.08 with hnB
  set newFov := lerp cam.fov (lerp FOV_ORTHO FOV_PERSPECTIVE tp) 0.08 with hnF
  set newRadius := APPARENT_SIZE_CONSTANT tan / tan (newFov / 2) with hnR
  set TGT0 : Option α :=
    (if w.lastTransitionProgress < 0.1 ∧ w.transitionTargetAlpha = none then some SNAP2
     else w.transitionTargetAlpha) with hT0
  set TGT2 : Option α := (if tp < 0.1 then none else if tp < 1 then TGT0 else none) with hT2
  set ALPHA2 : α :=
    (if tp < 0.1 then lerp cam.alpha SNAP1 0.08
     else if tp < 1 then TGT0.elim cam.alpha fun t => lerp cam.alpha t 0.08
     else cam.alpha) with hA2
  set CAM3 : Camera α :=
    { alpha := ALPHA2, beta := newBeta, fov := newFov, radius := newRadius
      lowerBetaLimit := newBeta, upperBetaLimit := newBeta
      lowerRadiusLimit := newRadius, upperRadiusLimit := newRadius
      minZ := max 0.1 (newRadius * 0.01) } with hC3
  set W4 : World α :=
    { w with camera := some CAM3, transitionTargetAlpha := TGT2
             lastTransitionProgress := tp, isOrthoView := decide (tp < 0.1) } with hW4
  have hC3alpha : CAM3.alpha = ALPHA2 := by rw [hC3]
  have hC3beta : CAM3.beta = newBeta := by rw [hC3]
  have hC3fov : CAM3.fov = newFov := by rw [hC3]
  have hC3radius : CAM3.radius = newRadius := by rw [hC3]
  have hC3lowerR : CAM3.lowerRadiusLimit = newRadius := by rw [hC3]
  have hC3upperR : CAM3.upperRadiusLimit = newRadius := by rw [hC3]
  have hC3minZ : CAM3.minZ = max 0.1 (newRadius * 0.01) := by rw [hC3]
  have hW4cam : W4.camera = some CAM3 := by rw [hW4]
  have hW4tgt : W4.transitionTargetAlpha = TGT2 := by rw [hW4]
  have hW4tp : W4.lastTransitionProgress = tp := by rw [hW4]
  have hW4last : W4.lastInteractionTime = w.lastInteractionTime := by rw [hW4]
  have hW4toggle : W4.isToggleMode = w.isToggleMode := by rw [hW4]
  have hW4ortho : W4.isOrthoView = decide (tp < 0.1) := by rw [hW4]
  suffices hmain : ∀ w5 : World α, PreservesCore W4 w5 →
      ∃ w' cam', some (frameTail pi now progress w5) = some w' ∧
        w'.camera = some cam' ∧
        w'.lastTransitionProgress = tp ∧
        w'.lastInteractionTime = w.lastInteractionTime ∧
        w'.isToggleMode = w.isToggleMode ∧
        w'.isOrthoView = decide (tp < 0.1) ∧
        cam'.beta = newBeta ∧
        cam'.fov = newFov ∧
        cam'.radius = APPARENT_SIZE_CONSTANT tan / tan (cam'.fov / 2) ∧
        cam'.lowerRadiusLimit = cam'.radius ∧
        cam'.upperRadiusLimit = cam'.radius ∧
        cam'.minZ = max 0.1 (cam'.radius * 0.01) ∧
        (tp < 0.1 →
          w'.transitionTargetAlpha = none ∧
          cam'.alpha = lerp cam.alpha SNAP1 0.08 ∧
          w'.isIdleRotating = false) ∧
        (0.1 ≤ tp → tp < 1 → w.lastTransitionProgress < 0.1 → w.transitionTargetAlpha = none →
          w'.transitionTargetAlpha = some SNAP2 ∧
          cam'.alpha = lerp cam.alpha SNAP2 0.08 ∧
          w'.isIdleRotating = false) ∧
        (∀ t, 0.1 ≤ tp → tp < 1 → w.transitionTargetAlpha = some t →
          w'.transitionTargetAlpha = some t ∧
          cam'.alpha = lerp cam.alpha t 0.08 ∧
          w'.isIdleRotating = false) ∧
        (0.1 ≤ tp → tp < 1 → 0.1 ≤ w.lastTransitionProgress → w.transitionTargetAlpha = none →
          w'.transitionTargetAlpha = none ∧
          cam'.alpha = cam.alpha ∧
          w'.isIdleRotating = false) ∧
        (tp = 1 →
          w'.transitionTargetAlpha = none ∧
          (now - w.lastInteractionTime > IDLE_TIMEOUT →
            cam'.alpha = cam.alpha + IDLE_ROTATION_SPEED ∧ w'.isIdleRotating = true) ∧
          (¬ now - w.lastInteractionTime > IDLE_TIMEOUT →
            cam'.alpha = cam.alpha ∧ w'.isIdleRotating = false)) by
    by_cases hedge : decide (tp < 0.1) ≠ w.isOrthoView
    · rw [if_pos hedge]
      rcases hwall : updateWallVisibilityForMode pi W4 with _ | w5
      · exact absurd hwall (updateWallVisibilityForMode_ne_none pi W4 (by rw [hW4cam]; simp))
      · exact hmain w5 (updateWallVisibilityForMode_core pi W4 w5 hwall)
    · rw [if_neg hedge]
      exact hmain W4 ⟨rfl, rfl, rfl, rfl, rfl, rfl, rfl, rfl⟩
  intro w5 hcore
  have hc4 : w5.camera = some CAM3 := hcore.1.trans hW4cam
  have hl5 : w5.lastInteractionTime = w.lastInteractionTime :=
    hcore.2.2.2.2.1.trans hW4last
  obtain ⟨cam', htcam, httgt, htlastTP, htlastI, httoggle, htortho, htbeta, htfov, htradius,
    _, _, htlowerR, htupperR, htminZ, htidleT, htidleF⟩ :=
    frameTail_char pi now progress w5 CAM3 hc4
  have hwtgt : (frameTail pi now progress w5).transitionTargetAlpha = TGT2 :=
    httgt.trans (hcore.2.1.trans hW4tgt)
  refine ⟨frameTail pi now progress w5, cam', rfl, htcam, ?_, ?_, ?_, ?_, ?_, ?_, ?_, ?_, ?_,
    ?_, ?_, ?_, ?_, ?_, ?_⟩
  · exact htlastTP.trans (hcore.2.2.1.trans hW4tp)
  · exact htlastI.trans hl5
  · exact httoggle.trans (hcore.2.2.2.2.2.2.1.trans hW4toggle)
  · exact htortho.trans (hcore.2.2.2.2.2.1.trans hW4ortho)
  · exact htbeta.trans hC3beta
  · exact htfov.trans hC3fov
  · rw [htradius, hC3radius, htfov, hC3fov]
  · rw [htlowerR, hC3lowerR, htradius, hC3radius]
  · rw [htupperR, hC3upperR, htradius, hC3radius]
  · rw [htminZ, hC3minZ, htradius, hC3radius]
  · -- ortho regime: tp < 0.1
    intro ha
    have h1 : tp < 1 := lt_trans ha (by norm_num)
    have hplt : ¬ progress ≥ (0.33 : α) := by
      intro hp
      rw [htp, transitionProgress_eq_one hp] at h1
      exact absurd h1 (lt_irrefl 1)
    obtain ⟨hα, hidle⟩ := htidleF fun hy => hplt hy.1
    refine ⟨?_, ?_, hidle⟩
    · rw [hwtgt, hT2, if_pos ha]
    · rw [hα, hC3alpha, hA2, if_pos ha]
  · -- capture frame: enters [0.1, 1) from below with no stored target
    intro h1 h2 h3 h4
    have hplt : ¬ progress ≥ (0.33 : α) := by
      intro hp
      rw [htp, transitionProgress_eq_one hp] at h2
      exact absurd h2 (lt_irrefl 1)
    obtain ⟨hα, hidle⟩ := htidleF fun hy => hplt hy.1
    have hTGT0 : TGT0 = some SNAP2 := by rw [hT0, if_pos ⟨h3, h4⟩]
    refine ⟨?_, ?_, hidle⟩
    · rw [hwtgt, hT2, if_neg (not_lt.2 h1), if_pos h2, hTGT0]
    · rw [hα, hC3alpha, hA2, if_neg (not_lt.2 h1), if_pos h2, hTGT0]
      rfl
  · -- stored target is kept and eased toward
    intro t h1 h2 ht
    have hplt : ¬ progress ≥ (0.33 : α) := by
      intro hp
      rw [htp, transitionProgress_eq_one hp] at h2
      exact absurd h2 (lt_irrefl 1)
    obtain ⟨hα, hidle⟩ := htidleF fun hy => hplt hy.1
    have hTGT0 : TGT0 = some t := by
      rw [hT0, if_neg, ht]
      intro hy
      rw [ht] at hy
      exact Option.noConfusion hy.2
    refine ⟨?_, ?_, hidle⟩
    · rw [hwtgt, hT2, if_neg (not_lt.2 h1), if_pos h2, hTGT0]
    · rw [hα, hC3alpha, hA2, if_neg (not_lt.2 h1), if_pos h2, hTGT0]
      rfl
  · -- in [0.1, 1) with no stored target and no crossing: nothing happens
    intro h1 h2 h3 h4
    have hplt : ¬ progress ≥ (0.33 : α) := by
      intro hp
      rw [htp, transitionProgress_eq_one hp] at h2
      exact absurd h2 (lt_irrefl 1)
    obtain ⟨hα, hidle⟩ := htidleF fun hy => hplt hy.1
    have hTGT0 : TGT0 = none := by
      rw [hT0, if_neg, h4]
      intro hy
      exact absurd hy.1 (not_lt.2 h3)
    refine ⟨?_, ?_, hidle⟩
    · rw [hwtgt, hT2, if_neg (not_lt.2 h1), if_pos h2, hTGT0]
    · rw [hα, hC3alpha, hA2, if_neg (not_lt.2 h1), if_pos h2, hTGT0]
      rfl
  · -- perspective regime: tp = 1, idle rotation possible
    intro hc1
    have h01 : ¬ tp < 0.1 := by
      rw [hc1]
      norm_num
    have h11 : ¬ tp < 1 := by
      rw [hc1]
      exact lt_irrefl 1
    have hp : progress ≥ (0.33 : α) := by
      by_contra hnp
      push_neg at hnp
      have hlt := transitionProgress_lt_one hnp
      rw [← htp, hc1] at hlt
      exact absurd hlt (lt_irrefl 1)
    have hA2c : ALPHA2 = cam.alpha := by rw [hA2, if_neg h01, if_neg h11]
    refine ⟨?_, ?_, ?_⟩
    · rw [hwtgt, hT2, if_neg h01, if_neg h11]
    · intro hto
      obtain ⟨hα, hidle⟩ := htidleT ⟨hp, by rw [hl5]; exact hto⟩
      exact ⟨by rw [hα, hC3alpha, hA2c], hidle⟩
    · intro hto
      obtain ⟨hα, hidle⟩ := htidleF fun hy => hto (hl5 ▸ hy.2)
      exact ⟨by rw [hα, hC3alpha, hA2c], hidle⟩

/-! ### C4: the apparent-size invariant -/

/-- C4.  After every per-frame camera update (for any scroll progress, any
clock reading, and any camera field-of-view in `(0, π)`), the new camera
satisfies `radius * tan (fov / 2) = APPARENT_SIZE_CONSTANT`, with
`APPARENT_SIZE_CONSTANT = 30 * tan (0.34 / 2)`, because the radius is
recomputed each frame as `APPARENT_SIZE_CONSTANT / tan (fov / 2)` from the
smoothed FOV; moreover the radius is locked
(`lowerRadiusLimit = upperRadiusLimit = radius`). -/
theorem apparent_size_invariant (now progress : ℝ) (w : World ℝ) (cam : Camera ℝ)
    (hcam : w.camera = some cam) (hfov0 : 0 < cam.fov) (hfovpi : cam.fov < Real.pi) :
    ∃ w' cam', updateCameraFromScroll Real.pi Real.tan now progress w = some w' ∧
      w'.camera = some cam' ∧
      cam'.radius * Real.tan (cam'.fov / 2) = APPARENT_SIZE_CONSTANT Real.tan ∧
      cam'.lowerRadiusLimit = cam'.radius ∧
      cam'.upperRadiusLimit = cam'.radius ∧
      APPARENT_SIZE_CONSTANT Real.tan = 30 * Real.tan (0.34 / 2) := by
  obtain ⟨w', cam', heq, hcam', _, _, _, _, _, hfov, hradius, hlowerR, hupperR, _, _, _, _,
    _, _⟩ := updateCameraFromScroll_char Real.pi Real.tan now progress w cam hcam
  have htp0 : (0 : ℝ) ≤ clamp (progress / 0.33) 0 1 := left_le_clamp _ (by norm_num)
  have htp1 : clamp (progress / 0.33) 0 1 ≤ 1 := clamp_le_right _ _ _
  have hpi3 := Real.pi_gt_three
  have hfov' : 0 < cam'.fov ∧ cam'.fov < Real.pi := by
    rw [hfov]
    unfold lerp FOV_ORTHO FOV_PERSPECTIVE
    constructor <;> nlinarith
  have htan : 0 < Real.tan (cam'.fov / 2) :=
    Real.tan_pos_of_pos_of_lt_pi_div_two (by linarith [hfov'.1]) (by linarith [hfov'.2])
  refine ⟨w', cam', heq, hcam', ?_, hlowerR, hupperR, ?_⟩
  · rw [hradius]
    exact div_mul_cancel₀ _ (ne_of_gt htan)
  · unfold APPARENT_SIZE_CONSTANT RADIUS_PERSPECTIVE FOV_PERSPECTIVE
    norm_num

/-- C4 witness: the theorem applied to the freshly created camera
(`fov = 0.05`) in an otherwise initial world, at scroll progress `0`. -/
theorem apparent_size_invariant_witness :
    (({ initialWorld 0 with
        camera := some (initialCamera Real.pi Real.tan) } : World ℝ).camera =
      some (initialCamera Real.pi Real.tan)) ∧
    (0 : ℝ) < (initialCamera Real.pi Real.tan).fov ∧
    (initialCamera Real.pi Real.tan).fov < Real.pi ∧
    (∃ w' cam',
      updateCameraFromScroll Real.pi Real.tan 0 0
        ({ initialWorld 0 with
          camera := some (initialCamera Real.pi Real.tan) } : World ℝ) = some w' ∧
      w'.camera = some cam' ∧
      cam'.radius * Real.tan (cam'.fov / 2) = APPARENT_SIZE_CONSTANT Real.tan ∧
      cam'.lowerRadiusLimit = cam'.radius ∧
      cam'.upperRadiusLimit = cam'.radius ∧
      APPARENT_SIZE_CONSTANT Real.tan = 30 * Real.tan (0.34 / 2)) :=
  ⟨rfl, by norm_num [initialCamera, FOV_ORTHO],
    by
      have := Real.pi_gt_three
      have hf : (initialCamera Real.pi Real.tan).fov = 0.05 := by
        norm_num [initialCamera, FOV_ORTHO]
      rw [hf]
      linarith,
    apparent_size_invariant 0 0 _ _ rfl
      (by norm_num [initialCamera, FOV_ORTHO])
      (by
        have := Real.pi_gt_three
        have hf : (initialCamera Real.pi Real.tan).fov = 0.05 := by
          norm_num [initialCamera, FOV_ORTHO]
        rw [hf]
        linarith)⟩

/-! ### C1: camera transition target capture -/

/-- C1.  During the per-frame camera update with
`tp = clamp (progress / 0.33) 0 1`: on the first frame where `tp` crosses
from below `0.1` into `[0.1, 1)` (`lastTransitionProgress < 0.1`, stored
target `none`), `transitionTargetAlpha` is set to
`snapToNearest (snapToNearest alpha STRAIGHT_ANGLES) QUADRANT_CENTERS` — the
quadrant-center angle nearest (by circular distance, ties to the earlier
array element, per the minimality conjuncts) to the straight angle nearest
the current azimuth — and the azimuth eases toward it; on every subsequent
frame while `tp` stays in `[0.1, 1)` with a stored target `t`, the target is
kept unchanged (never re-snapped) and the azimuth eases toward this same `t`
(`alpha' = lerp alpha t 0.08`); and the target is cleared (`none`) whenever
`tp < 0.1` or `tp` reaches `1`. -/
theorem transition_target_capture (pi : α) (tan : α → α) (now progress : α)
    (w : World α) (cam : Camera α) (hcam : w.camera = some cam) :
    ∃ w' cam', updateCameraFromScroll pi tan now progress w = some w' ∧
      w'.camera = some cam' ∧
      w'.lastTransitionProgress = clamp (progress / 0.33) 0 1 ∧
      (0.1 ≤ clamp (progress / 0.33) 0 1 → clamp (progress / 0.33) 0 1 < 1 →
        w.lastTransitionProgress < 0.1 → w.transitionTargetAlpha = none →
        w'.transitionTargetAlpha =
          some (snapToNearest pi (snapToNearest pi cam.alpha (STRAIGHT_ANGLES pi))
            (QUADRANT_CENTERS pi)) ∧
        cam'.alpha =
          lerp cam.alpha
            (snapToNearest pi (snapToNearest pi cam.alpha (STRAIGHT_ANGLES pi))
              (QUADRANT_CENTERS pi)) 0.08 ∧
        snapToNearest pi cam.alpha (STRAIGHT_ANGLES pi) ∈ STRAIGHT_ANGLES pi ∧
        (∀ c ∈ STRAIGHT_ANGLES pi,
          circDistSpec pi (normalizeAlpha pi cam.alpha)
              (snapToNearest pi cam.alpha (STRAIGHT_ANGLES pi)) ≤
            circDistSpec pi (normalizeAlpha pi cam.alpha) c) ∧
        snapToNearest pi (snapToNearest pi cam.alpha (STRAIGHT_ANGLES pi))
            (QUADRANT_CENTERS pi) ∈ QUADRANT_CENTERS pi ∧
        (∀ c ∈ QUADRANT_CENTERS pi,
          circDistSpec pi
              (normalizeAlpha pi (snapToNearest pi cam.alpha (STRAIGHT_ANGLES pi)))
              (snapToNearest pi (snapToNearest pi cam.alpha (STRAIGHT_ANGLES pi))
                (QUADRANT_CENTERS pi)) ≤
            circDistSpec pi
              (normalizeAlpha pi (snapToNearest pi cam.alpha (STRAIGHT_ANGLES pi))) c)) ∧
      (∀ t, 0.1 ≤ clamp (progress / 0.33) 0 1 → clamp (progress / 0.33) 0 1 < 1 →
        w.transitionTargetAlpha = some t →
        w'.transitionTargetAlpha = some t ∧ cam'.alpha = lerp cam.alpha t 0.08) ∧
      (clamp (progress / 0.33) 0 1 < 0.1 → w'.transitionTargetAlpha = none) ∧
      (clamp (progress / 0.33) 0 1 = 1 → w'.transitionTargetAlpha = none) := by
  obtain ⟨w', cam', heq, hcam', htp, _, _, _, _, _, _, _, _, _, hA, hB1, hB2, _, hC⟩ :=
    updateCameraFromScroll_char pi tan now progress w cam hcam
  have hstraight := snapToNearest_char pi cam.alpha 0 [pi / 2, pi, 3 * pi / 2]
  have hcenters := snapToNearest_char pi (snapToNearest pi cam.alpha (STRAIGHT_ANGLES pi))
    (pi / 4) [3 * pi / 4, 5 * pi / 4, 7 * pi / 4]
  refine ⟨w', cam', heq, hcam', htp, ?_, ?_, ?_, ?_⟩
  · intro h1 h2 h3 h4
    obtain ⟨ht, ha, _⟩ := hB1 h1 h2 h3 h4
    exact ⟨ht, ha, hstraight.1, hstraight.2.1, hcenters.1, hcenters.2.1⟩
  · intro t h1 h2 ht
    obtain ⟨ht', ha', _⟩ := hB2 t h1 h2 ht
    exact ⟨ht', ha'⟩
  · intro ha
    exact (hA ha).1
  · intro hc
    exact (hC hc).1

/-- C1 witness: concrete capture frame over `ℚ` with `pi = 4`; the camera
starts at azimuth `2` (= 90° in the scaled model) with no stored target,
the previous transition progress is `0`, and the scroll progress `0.066`
gives `tp = 0.2 ∈ [0.1, 1)`. -/
theorem transition_target_capture_witness :
    (({ initialWorld 0 with camera := some (initialCamera 4 id) } : World ℚ).camera =
      some (initialCamera 4 id)) ∧
    (0.1 : ℚ) ≤ clamp ((0.066 : ℚ) / 0.33) 0 1 ∧
    clamp ((0.066 : ℚ) / 0.33) 0 1 < 1 ∧
    ({ initialWorld 0 with camera := some (initialCamera 4 id) } :
      World ℚ).lastTransitionProgress < 0.1 ∧
    ({ initialWorld 0 with camera := some (initialCamera 4 id) } :
      World ℚ).transitionTargetAlpha = none ∧
    ∃ w' cam', updateCameraFromScroll (4 : ℚ) id 0 0.066
        ({ initialWorld 0 with camera := some (initialCamera 4 id) } : World ℚ) = some w' ∧
      w'.camera = some cam' ∧
      w'.transitionTargetAlpha =
        some (snapToNearest (4 : ℚ) (snapToNearest (4 : ℚ) (initialCamera 4 id).alpha
          (STRAIGHT_ANGLES 4)) (QUADRANT_CENTERS 4)) ∧
      cam'.alpha =
        lerp (initialCamera 4 id).alpha
          (snapToNearest (4 : ℚ) (snapToNearest (4 : ℚ) (initialCamera 4 id).alpha
            (STRAIGHT_ANGLES 4)) (QUADRANT_CENTERS 4)) 0.08 := by
  have h1 : (0.1 : ℚ) ≤ clamp ((0.066 : ℚ) / 0.33) 0 1 := by
    rw [clamp_eq_self (by norm_num) (by norm_num)]
    norm_num
  have h2 : clamp ((0.066 : ℚ) / 0.33) 0 1 < 1 := by
    rw [clamp_eq_self (by norm_num) (by norm_num)]
    norm_num
  have h3 : ({ initialWorld 0 with camera := some (initialCamera 4 id) } :
      World ℚ).lastTransitionProgress < 0.1 := by
    norm_num [initialWorld]
  obtain ⟨w', cam', heq, hcam', _, hcapture, _, _, _⟩ :=
    transition_target_capture (4 : ℚ) id 0 0.066
      ({ initialWorld 0 with camera := some (initialCamera 4 id) } : World ℚ)
      (initialCamera 4 id) rfl
  obtain ⟨ht, ha, _, _, _, _⟩ := hcapture h1 h2 h3 rfl
  exact ⟨rfl, h1, h2, h3, rfl, w', cam', heq, hcam', ht, ha⟩

/-! ### C6: idle rotation -/

theorem idle_iter (pi : α) (tan : α → α) (now progress : α) (hp : progress ≥ 0.33) :
    ∀ (n : ℕ) (w : World α) (cam : Camera α), w.camera = some cam →
      now - w.lastInteractionTime > IDLE_TIMEOUT →
      ∃ w' cam', frameIter pi tan now progress n w = some w' ∧
        w'.camera = some cam' ∧
        cam'.alpha = cam.alpha + n * IDLE_ROTATION_SPEED ∧
        w'.lastInteractionTime = w.lastInteractionTime := by
  intro n
  induction n with
  | zero =>
    intro w cam hcam hto
    exact ⟨w, cam, rfl, hcam, by simp, rfl⟩
  | succ n ih =>
    intro w cam hcam hto
    obtain ⟨w1, cam1, heq, hcam1, _, hlast1, _, _, _, _, _, _, _, _, _, _, _, _, hC⟩ :=
      updateCameraFromScroll_char pi tan now progress w cam hcam
    obtain ⟨_, hidleT, _⟩ := hC (transitionProgress_eq_one hp)
    obtain ⟨hα1, _⟩ := hidleT hto
    obtain ⟨w', cam', heq', hcam', hα', hlast'⟩ :=
      ih w1 cam1 hcam1 (by rw [hlast1]; exact hto)
    refine ⟨w', cam', ?_, hcam', ?_, by rw [hlast', hlast1]⟩
    · show (updateCameraFromScroll pi tan now progress w).bind
        (frameIter pi tan now progress n) = some w'
      rw [heq]
      exact heq'
    · rw [hα', hα1]
      push_cast
      ring

/-- C6.  Idle rotation: (i) on a frame with `progress ≥ 0.33` whose elapsed
time since the last interaction exceeds the 10000 ms timeout, the azimuth is
incremented by exactly `IDLE_ROTATION_SPEED = 0.0005` and the idle flag is
set; (ii) across `n` such consecutive frames the azimuth increases
monotonically by `n * 0.0005`; (iii) after an interaction resets the timer,
a next frame within the timeout applies no idle increment and clears the
flag; and (iv) on every frame with `progress < 0.33` idle rotation is
suppressed entirely — the flag is cleared and the resulting azimuth does not
depend on the clock reading at all. -/
theorem idle_rotation_spec (pi : α) (tan : α → α) (w : World α) (cam : Camera α)
    (hcam : w.camera = some cam) :
    (∀ now progress : α, progress ≥ 0.33 → now - w.lastInteractionTime > IDLE_TIMEOUT →
      (∃ w' cam', updateCameraFromScroll pi tan now progress w = some w' ∧
        w'.camera = some cam' ∧ cam'.alpha = cam.alpha + IDLE_ROTATION_SPEED ∧
        w'.isIdleRotating = true ∧ w'.lastInteractionTime = w.lastInteractionTime) ∧
      (∀ n : ℕ, ∃ w' cam', frameIter pi tan now progress n w = some w' ∧
        w'.camera = some cam' ∧ cam'.alpha = cam.alpha + n * IDLE_ROTATION_SPEED)) ∧
    (∀ nowR nowF progress : α, progress ≥ 0.33 → nowF - nowR ≤ IDLE_TIMEOUT →
      ∃ w' cam',
        updateCameraFromScroll pi tan nowF progress (resetIdleTimer nowR w) = some w' ∧
        w'.camera = some cam' ∧ cam'.alpha = cam.alpha ∧ w'.isIdleRotating = false) ∧
    (∀ now progress : α, progress < 0.33 →
      ∃ w' cam', updateCameraFromScroll pi tan now progress w = some w' ∧
        w'.camera = some cam' ∧ w'.isIdleRotating = false ∧
        ∀ now₂, ∃ w₂ cam₂, updateCameraFromScroll pi tan now₂ progress w = some w₂ ∧
          w₂.camera = some cam₂ ∧ cam₂.alpha = cam'.alpha ∧ w₂.isIdleRotating = false) := by
  refine ⟨?_, ?_, ?_⟩
  · intro now progress hp hto
    constructor
    · obtain ⟨w', cam', heq, hcam', _, hlast, _, _, _, _, _, _, _, _, _, _, _, _, hC⟩ :=
        updateCameraFromScroll_char pi tan now progress w cam hcam
      obtain ⟨_, hidleT, _⟩ := hC (transitionProgress_eq_one hp)
      obtain ⟨hα, hidle⟩ := hidleT hto
      exact ⟨w', cam', heq, hcam', hα, hidle, hlast⟩
    · intro n
      obtain ⟨w', cam', heq, hcam', hα, _⟩ := idle_iter pi tan now progress hp n w cam hcam hto
      exact ⟨w', cam', heq, hcam', hα⟩
  · intro nowR nowF progress hp hle
    obtain ⟨w', cam', heq, hcam', _, _, _, _, _, _, _, _, _, _, _, _, _, _, hC⟩ :=
      updateCameraFromScroll_char pi tan nowF progress (resetIdleTimer nowR w) cam hcam
    obtain ⟨_, _, hidleF⟩ := hC (transitionProgress_eq_one hp)
    obtain ⟨hα, hidle⟩ := hidleF (by
      show ¬ nowF - (resetIdleTimer nowR w).lastInteractionTime > IDLE_TIMEOUT
      exact not_lt.2 hle)
    exact ⟨w', cam', heq, hcam', hα, hidle⟩
  · intro now progress hplt
    have htp1 : clamp (progress / (0.33 : α)) 0 1 < 1 := transitionProgress_lt_one hplt
    obtain ⟨w', cam', heq, hcam', _, _, _, _, _, _, _, _, _, _, hA, hB1, hB2, hB3, _⟩ :=
      updateCameraFromScroll_char pi tan now progress w cam hcam
    by_cases h01 : clamp (progress / (0.33 : α)) 0 1 < 0.1
    · obtain ⟨_, hα, hidle⟩ := hA h01
      refine ⟨w', cam', heq, hcam', hidle, ?_⟩
      intro now₂
      obtain ⟨w₂, cam₂, heq₂, hcam₂, _, _, _, _, _, _, _, _, _, _, hA₂, _, _, _, _⟩ :=
        updateCameraFromScroll_char pi tan now₂ progress w cam hcam
      obtain ⟨_, hα₂, hidle₂⟩ := hA₂ h01
      exact ⟨w₂, cam₂, heq₂, hcam₂, by rw [hα₂, hα], hidle₂⟩
    · have h1 : (0.1 : α) ≤ clamp (progress / 0.33) 0 1 := not_lt.1 h01
      rcases hT : w.transitionTargetAlpha with _ | t
      · by_cases hLT : w.lastTransitionProgress < 0.1
        · obtain ⟨_, hα, hidle⟩ := hB1 h1 htp1 hLT hT
          refine ⟨w', cam', heq, hcam', hidle, ?_⟩
          intro now₂
          obtain ⟨w₂, cam₂, heq₂, hcam₂, _, _, _, _, _, _, _, _, _, _, _, hB1₂, _, _, _⟩ :=
            updateCameraFromScroll_char pi tan now₂ progress w cam hcam
          obtain ⟨_, hα₂, hidle₂⟩ := hB1₂ h1 htp1 hLT hT
          exact ⟨w₂, cam₂, heq₂, hcam₂, by rw [hα₂, hα], hidle₂⟩
        · obtain ⟨_, hα, hidle⟩ := hB3 h1 htp1 (not_lt.1 hLT) hT
          refine ⟨w', cam', heq, hcam', hidle, ?_⟩
          intro now₂
          obtain ⟨w₂, cam₂, heq₂, hcam₂, _, _, _, _, _, _, _, _, _, _, _, _, _, hB3₂, _⟩ :=
            updateCameraFromScroll_char pi tan now₂ progress w cam hcam
          obtain ⟨_, hα₂, hidle₂⟩ := hB3₂ h1 htp1 (not_lt.1 hLT) hT
          exact ⟨w₂, cam₂, heq₂, hcam₂, by rw [hα₂, hα], hidle₂⟩
      · obtain ⟨_, hα, hidle⟩ := hB2 t h1 htp1 hT
        refine ⟨w', cam', heq, hcam', hidle, ?_⟩
        intro now₂
        obtain ⟨w₂, cam₂, heq₂, hcam₂, _, _, _, _, _, _, _, _, _, _, _, _, hB2₂, _, _⟩ :=
          updateCameraFromScroll_char pi tan now₂ progress w cam hcam
        obtain ⟨_, hα₂, hidle₂⟩ := hB2₂ t h1 htp1 hT
        exact ⟨w₂, cam₂, heq₂, hcam₂, by rw [hα₂, hα], hidle₂⟩

/-- C6 witness: over `ℚ` with `pi = 4`, from the initial camera world with
`lastInteractionTime = 0`, a frame at clock `20000` with progress `1`
(exceeding the 10000 ms timeout) increments the azimuth by `0.0005`. -/
theorem idle_rotation_spec_witness :
    (({ initialWorld 0 with camera := some (initialCamera 4 id) } : World ℚ).camera =
      some (initialCamera 4 id)) ∧
    (1 : ℚ) ≥ 0.33 ∧
    (20000 : ℚ) - ({ initialWorld 0 with camera := some (initialCamera 4 id) } :
      World ℚ).lastInteractionTime > IDLE_TIMEOUT ∧
    ∃ w' cam', updateCameraFromScroll (4 : ℚ) id 20000 1
        ({ initialWorld 0 with camera := some (initialCamera 4 id) } : World ℚ) = some w' ∧
      w'.camera = some cam' ∧
      cam'.alpha = (initialCamera 4 id).alpha + IDLE_ROTATION_SPEED ∧
      w'.isIdleRotating = true := by
  have hp : (1 : ℚ) ≥ 0.33 := by norm_num
  have hto : (20000 : ℚ) - ({ initialWorld 0 with camera := some (initialCamera 4 id) } :
      World ℚ).lastInteractionTime > IDLE_TIMEOUT := by
    norm_num [initialWorld, IDLE_TIMEOUT]
  obtain ⟨hmain, _, _⟩ :=
    idle_rotation_spec (4 : ℚ) id
      ({ initialWorld 0 with camera := some (initialCamera 4 id) } : World ℚ)
      (initialCamera 4 id) rfl
  obtain ⟨⟨w', cam', heq, hcam', hα, hidle, _⟩, _⟩ := hmain 20000 1 hp hto
  exact ⟨rfl, hp, hto, w', cam', heq, hcam', hα, hidle⟩

/-! ### C2: the sun-blend factor -/

/-- C2 counterexample.  At scroll progress `0.68` the blend factor written to
the three blended procedural textures is `0.2`, not the `0.4` the claim
computes from a ramp span of `0.05`: the code's `fadeSpeed` is `0.1`. -/
theorem sun_blend_span_counterexample :
    ((updateSunPathTransition (0.68 : ℚ)
        ({ initialWorld 0 with
            blendedTextureWhite := some ⟨0, 5⟩
            blendedTextureAccent := some ⟨0, 5⟩
            blendedTextureAccent2 := some ⟨0, 5⟩ } : World ℚ)).blendedTextureWhite).map
        BlendTex.blendFactor = some 0.2 ∧
    ((updateSunPathTransition (0.68 : ℚ)
        ({ initialWorld 0 with
            blendedTextureWhite := some ⟨0, 5⟩
            blendedTextureAccent := some ⟨0, 5⟩
            blendedTextureAccent2 := some ⟨0, 5⟩ } : World ℚ)).blendedTextureAccent).map
        BlendTex.blendFactor = some 0.2 ∧
    ((updateSunPathTransition (0.68 : ℚ)
        ({ initialWorld 0 with
            blendedTextureWhite := some ⟨0, 5⟩
            blendedTextureAccent := some ⟨0, 5⟩
            blendedTextureAccent2 := some ⟨0, 5⟩ } : World ℚ)).blendedTextureAccent2).map
        BlendTex.blendFactor = some 0.2 ∧
    (0.2 : ℚ) ≠ 0.4 := by
  have ht : sunBlendFactorOf (0.68 : ℚ) = 0.2 := by
    unfold sunBlendFactorOf
    rw [if_pos (by norm_num : (0.68 : ℚ) ≥ 0.66),
      clamp_eq_self (by norm_num) (by norm_num)]
    norm_num
  refine ⟨?_, ?_, ?_, by norm_num⟩ <;>
    (unfold updateSunPathTransition
     rw [ht]
     norm_num [setBlendFactor, setCoordsIndexZero])

/-- C2 (amended).  For every scroll progress `p`, the blend factor applied to
the three blended procedural textures is `sunBlendFactorOf p`, which is `0`
below the start threshold `0.66`, ramps linearly to `1` over a fixed span of
`0.1` (the code's `fadeSpeed`), and is clamped at `1` thereafter; in
particular progress `0.60` gives factor `0`, progress `0.68` gives factor
`0.2`, and progress `1.0` gives factor `1`. -/
theorem sun_blend_factor_amended (p : α) :
    (∀ w : World α, ∀ texW texA texA2 : BlendTex α,
      w.blendedTextureWhite = some texW → w.blendedTextureAccent = some texA →
      w.blendedTextureAccent2 = some texA2 →
      ((updateSunPathTransition p w).blendedTextureWhite).map BlendTex.blendFactor =
          some (sunBlendFactorOf p) ∧
      ((updateSunPathTransition p w).blendedTextureAccent).map BlendTex.blendFactor =
          some (sunBlendFactorOf p) ∧
      ((updateSunPathTransition p w).blendedTextureAccent2).map BlendTex.blendFactor =
          some (sunBlendFactorOf p)) ∧
    (p < 0.66 → sunBlendFactorOf p = 0) ∧
    (0.66 ≤ p → p ≤ 0.76 → sunBlendFactorOf p = (p - 0.66) / 0.1) ∧
    (0.76 ≤ p → sunBlendFactorOf p = 1) ∧
    sunBlendFactorOf (0.60 : α) = 0 ∧
    sunBlendFactorOf (0.68 : α) = 0.2 ∧
    sunBlendFactorOf (1 : α) = 1 := by
  refine ⟨?_, ?_, ?_, ?_, ?_, ?_, ?_⟩
  · intro w texW texA texA2 hW hA hA2
    unfold updateSunPathTransition
    dsimp only
    refine ⟨?_, ?_, ?_⟩ <;>
      (split <;> simp [hW, hA, hA2, setBlendFactor, setCoordsIndexZero])
  · intro hlt
    unfold sunBlendFactorOf
    rw [if_neg (not_le.2 hlt)]
  · intro h1 h2
    unfold sunBlendFactorOf
    rw [if_pos h1,
      clamp_eq_self (div_nonneg (by linarith) (by norm_num))
        ((div_le_one (by norm_num)).2 (by linarith))]
  · intro h1
    unfold sunBlendFactorOf
    rw [if_pos (by linarith), clamp_eq_of_ge 0 ?_ (by norm_num)]
    rw [le_div_iff₀ (by norm_num : (0 : α) < 0.1)]
    linarith
  · unfold sunBlendFactorOf
    rw [if_neg (by norm_num : ¬ (0.60 : α) ≥ 0.66)]
  · unfold sunBlendFactorOf
    rw [if_pos (by norm_num : (0.68 : α) ≥ 0.66),
      clamp_eq_self (by norm_num) (by norm_num)]
    norm_num
  · unfold sunBlendFactorOf
    rw [if_pos (by norm_num : (1 : α) ≥ 0.66), clamp_eq_of_ge 0 ?_ (by norm_num)]
    rw [le_div_iff₀ (by norm_num : (0 : α) < 0.1)]
    norm_num

/-- C2 witness: the amended theorem evaluated over `ℚ` at progress `0.7`
with concrete textures present. -/
theorem sun_blend_factor_amended_witness :
    ((updateSunPathTransition (0.7 : ℚ)
        ({ initialWorld 0 with
            blendedTextureWhite := some ⟨0, 5⟩
            blendedTextureAccent := some ⟨0, 5⟩
            blendedTextureAccent2 := some ⟨0, 5⟩ } : World ℚ)).blendedTextureWhite).map
        BlendTex.blendFactor = some (sunBlendFactorOf (0.7 : ℚ)) ∧
    (0.66 : ℚ) ≤ 0.7 ∧ (0.7 : ℚ) ≤ 0.76 ∧
    sunBlendFactorOf (0.7 : ℚ) = ((0.7 : ℚ) - 0.66) / 0.1 ∧
    sunBlendFactorOf (0.60 : ℚ) = 0 :=
  ⟨((sun_blend_factor_amended (0.7 : ℚ)).1 _ ⟨0, 5⟩ ⟨0, 5⟩ ⟨0, 5⟩ rfl rfl rfl).1,
    by norm_num, by norm_num,
    (sun_blend_factor_amended (0.7 : ℚ)).2.2.1 (by norm_num) (by norm_num),
    (sun_blend_factor_amended (0.7 : ℚ)).2.2.2.2.1⟩

/-! ### C3: the degenerate scroll-region computation -/

/-- C3 counterexample.  With scrollable distance `0` and scrolled amount
`100`, the quotient is `+Infinity` and `clamp` yields progress `1`, not the
`0` the claim asserts: the division is not guarded. -/
theorem scroll_guard_counterexample :
    scrollProgressJs 100 0 = JsNum.fin 1 ∧ JsNum.fin (1 : ℚ) ≠ JsNum.fin 0 := by
  constructor
  · unfold scrollProgressJs jsDiv
    norm_num [jsMax, jsMin]
  · intro hcontra
    simp only [JsNum.fin.injEq] at hcontra
    norm_num at hcontra

/-- C3 (amended).  The per-frame scroll-progress computation
`clamp (scrolled / distance) 0 1` is unguarded.  For a positive scrollable
distance it behaves normally; for a negative distance with non-negative
scrolled amount the quotient is non-positive and the progress clamps to `0`;
but for distance exactly `0` the IEEE-754 quotient is `+Infinity`,
`-Infinity` or `NaN`, and the clamped progress is `1`, `0` or `NaN`
respectively — not `0` in general. -/
theorem scroll_progress_degenerate_amended :
    (∀ s d : ℚ, d ≠ 0 → scrollProgressJs s d = JsNum.fin (clamp (s / d) 0 1)) ∧
    (∀ s d : ℚ, d < 0 → 0 ≤ s → scrollProgressJs s d = JsNum.fin 0) ∧
    (∀ s : ℚ, 0 < s → scrollProgressJs s 0 = JsNum.fin 1) ∧
    (∀ s : ℚ, s < 0 → scrollProgressJs s 0 = JsNum.fin 0) ∧
    scrollProgressJs 0 0 = JsNum.nan := by
  refine ⟨?_, ?_, ?_, ?_, ?_⟩
  · intro s d hd
    unfold scrollProgressJs jsDiv
    rw [if_neg hd]
    simp [jsMax, jsMin, clamp]
  · intro s d hd hs
    unfold scrollProgressJs jsDiv
    rw [if_neg (ne_of_lt hd)]
    have hq : s / d ≤ 0 := div_nonpos_iff.2 (Or.inl ⟨hs, hd.le⟩)
    simp only [jsMax, jsMin, JsNum.fin.injEq]
    rw [max_eq_right hq, min_eq_left (by norm_num : (0 : ℚ) ≤ 1)]
  · intro s hs
    unfold scrollProgressJs jsDiv
    rw [if_pos rfl, if_neg (ne_of_gt hs), if_pos hs]
    simp [jsMax, jsMin]
  · intro s hs
    unfold scrollProgressJs jsDiv
    rw [if_pos rfl, if_neg (ne_of_lt hs), if_neg (not_lt.2 hs.le)]
    simp [jsMax, jsMin]
  · unfold scrollProgressJs jsDiv
    rw [if_pos rfl, if_pos rfl]
    simp [jsMax, jsMin]

/-- C3 witness: concrete evaluations of the amended theorem — a negative
scrollable distance clamps to `0`, while a zero distance with positive
scrolled amount yields `1`. -/
theorem scroll_progress_degenerate_amended_witness :
    ((-3 : ℚ) < 0 ∧ (0 : ℚ) ≤ 5 ∧ scrollProgressJs 5 (-3) = JsNum.fin 0) ∧
    ((0 : ℚ) < 7 ∧ scrollProgressJs 7 0 = JsNum.fin 1) :=
  ⟨⟨by norm_num, by norm_num,
      scroll_progress_degenerate_amended.2.1 5 (-3) (by norm_num) (by norm_num)⟩,
    ⟨by norm_num, scroll_progress_degenerate_amended.2.2.1 7 (by norm_num)⟩⟩

/-! ### C9: the time-of-day label -/

/-- C9 counterexample.  At slider index `2` the program emits
"Sun path - 6AM" (hour `6 + (2-1)*15/39 ≈ 6.38`, rounding to `6`), while the
claim's formula `hour = 6 + index * (15/39)` gives `≈ 6.77`, rounding to `7`
and hence "Sun path - 7AM": the claim's formula uses `index` where the code
uses `index - 1`. -/
theorem sun_path_title_counterexample :
    sunPathLabel 2 = "Sun path - 6AM" ∧
    sunPathLabelClaimFormula 2 = "Sun path - 7AM" ∧
    sunPathLabel 2 ≠ sunPathLabelClaimFormula 2 := by
  have h1 : sunPathLabel 2 = "Sun path - 6AM" := by
    unfold sunPathLabel roundJs
    norm_num
    rfl
  have h2 : sunPathLabelClaimFormula 2 = "Sun path - 7AM" := by
    unfold sunPathLabelClaimFormula roundJs
    norm_num
    rfl
  refine ⟨h1, h2, ?_⟩
  rw [h1, h2]
  decide

/-- C9 (amended).  For every slider index `1..40` the emitted label is
"Sun path - " followed by the hour `6 + (index - 1) * (15/39)`, rounded to
the nearest whole hour and formatted as 12-hour time with AM/PM, as listed
in `sunPathExpectedLabel`; in particular index 1 yields "Sun path - 6AM",
index 14 yields "Sun path - 11AM", and index 40 yields "Sun path - 9PM". -/
theorem sun_path_title_amended :
    (∀ i : ℕ, 1 ≤ i → i ≤ 40 → sunPathLabel (i : ℚ) = sunPathExpectedLabel i) ∧
    sunPathExpectedLabel 1 = "Sun path - 6AM" ∧
    sunPathExpectedLabel 14 = "Sun path - 11AM" ∧
    sunPathExpectedLabel 40 = "Sun path - 9PM" := by
  refine ⟨?_, rfl, rfl, rfl⟩
  intro i h1 h40
  interval_cases i <;>
    (unfold sunPathLabel roundJs
     norm_num [sunPathExpectedLabel]
     rfl)

/-- C9 witness: the amended theorem applied at index 14, giving
"Sun path - 11AM". -/
theorem sun_path_title_amended_witness :
    1 ≤ 14 ∧ 14 ≤ 40 ∧ sunPathLabel ((14 : ℕ) : ℚ) = sunPathExpectedLabel 14 ∧
      sunPathExpectedLabel 14 = "Sun path - 11AM" :=
  ⟨by norm_num, by norm_num, sun_path_title_amended.1 14 (by norm_num) (by norm_num),
    sun_path_title_amended.2.2.1⟩

/-! ### C5: the wall-visibility table -/

theorem setWallEnabled_mem (b : Bool) (ms : List (Mesh α)) :
    ∀ m ∈ setWallEnabled b ms, m.enabled = b := by
  intro m hm
  simp only [setWallEnabled, List.mem_map] at hm
  obtain ⟨a, _, rfl⟩ := hm
  rfl

/-- C5.  Wall-group visibility is a pure function of
`(isOrthoView, toggleMode, quadrant)`: in ortho view all four wall groups are
disabled; in perspective view with toggle off all four are enabled; in
perspective view with toggle on exactly two groups are disabled per
quadrant — quadrant 1 hides west and south (leaving north and east visible),
quadrant 2 hides south and east, quadrant 3 hides east and north (leaving
west and south visible), and quadrant 4 hides north and west. -/
theorem wall_visibility_table (pi : α) (w : World α) (cam : Camera α)
    (hcam : w.camera = some cam) :
    ∃ w', updateWallVisibilityForMode pi w = some w' ∧
      (w.isOrthoView = true →
        (∀ m ∈ w'.wallNorth, m.enabled = false) ∧ (∀ m ∈ w'.wallSouth, m.enabled = false) ∧
        (∀ m ∈ w'.wallEast, m.enabled = false) ∧ (∀ m ∈ w'.wallWest, m.enabled = false)) ∧
      (w.isOrthoView = false → w.isToggleMode = false →
        (∀ m ∈ w'.wallNorth, m.enabled = true) ∧ (∀ m ∈ w'.wallSouth, m.enabled = true) ∧
        (∀ m ∈ w'.wallEast, m.enabled = true) ∧ (∀ m ∈ w'.wallWest, m.enabled = true)) ∧
      (w.isOrthoView = false → w.isToggleMode = true →
        (getQuadrant pi cam.alpha = 1 →
          (∀ m ∈ w'.wallNorth, m.enabled = true) ∧ (∀ m ∈ w'.wallEast, m.enabled = true) ∧
          (∀ m ∈ w'.wallWest, m.enabled = false) ∧
          (∀ m ∈ w'.wallSouth, m.enabled = false)) ∧
        (getQuadrant pi cam.alpha = 2 →
          (∀ m ∈ w'.wallNorth, m.enabled = true) ∧ (∀ m ∈ w'.wallWest, m.enabled = true) ∧
          (∀ m ∈ w'.wallSouth, m.enabled = false) ∧
          (∀ m ∈ w'.wallEast, m.enabled = false)) ∧
        (getQuadrant pi cam.alpha = 3 →
          (∀ m ∈ w'.wallWest, m.enabled = true) ∧ (∀ m ∈ w'.wallSouth, m.enabled = true) ∧
          (∀ m ∈ w'.wallEast, m.enabled = false) ∧
          (∀ m ∈ w'.wallNorth, m.enabled = false)) ∧
        (getQuadrant pi cam.alpha = 4 →
          (∀ m ∈ w'.wallSouth, m.enabled = true) ∧ (∀ m ∈ w'.wallEast, m.enabled = true) ∧
          (∀ m ∈ w'.wallNorth, m.enabled = false) ∧
          (∀ m ∈ w'.wallWest, m.enabled = false))) := by
  unfold updateWallVisibilityForMode
  by_cases ho : w.isOrthoView = true
  · rw [if_pos ho]
    refine ⟨hideAllWalls w, rfl, ?_, ?_, ?_⟩
    · intro _
      exact ⟨setWallEnabled_mem _ _, setWallEnabled_mem _ _, setWallEnabled_mem _ _,
        setWallEnabled_mem _ _⟩
    · intro hcontra _
      simp [ho] at hcontra
    · intro hcontra _
      simp [ho] at hcontra
  · rw [if_neg ho]
    by_cases ht : w.isToggleMode = true
    · rw [if_pos ht, hcam]
      refine ⟨updateMeshVisibility (getQuadrant pi cam.alpha) w, rfl, ?_, ?_, ?_⟩
      · intro hcontra
        exact absurd hcontra ho
      · intro _ hcontra
        simp [ht] at hcontra
      · intro _ _
        refine ⟨?_, ?_, ?_, ?_⟩ <;>
          (intro hq
           rw [hq]
           refine ⟨?_, ?_, ?_, ?_⟩ <;>
             (intro m hm
              exact (setWallEnabled_mem _ _ m hm).trans (by decide)))
    · rw [if_neg ht]
      refine ⟨showAllWalls w, rfl, ?_, ?_, ?_⟩
      · intro hcontra
        exact absurd hcontra ho
      · intro _ _
        exact ⟨setWallEnabled_mem _ _, setWallEnabled_mem _ _, setWallEnabled_mem _ _,
          setWallEnabled_mem _ _⟩
      · intro _ hcontra
        simp [hcontra] at ht

/-- C5 witness: over `ℚ` with `pi = 4`, a perspective world with toggle on
and azimuth `1` (quadrant 1): north and east stay enabled, west and south
are disabled. -/
theorem wall_visibility_table_witness :
    (({ initialWorld 0 with
        camera := some ({ initialCamera 4 id with alpha := 1 } : Camera ℚ)
        isOrthoView := false
        isToggleMode := true
        wallNorth := [⟨true, 1, (1, 1, 1), none⟩]
        wallWest := [⟨true, 1, (1, 1, 1), none⟩] } : World ℚ).camera =
      some ({ initialCamera 4 id with alpha := 1 } : Camera ℚ)) ∧
    getQuadrant (4 : ℚ) ({ initialCamera 4 id with alpha := 1 } : Camera ℚ).alpha = 1 ∧
    ∃ w', updateWallVisibilityForMode (4 : ℚ)
        ({ initialWorld 0 with
            camera := some ({ initialCamera 4 id with alpha := 1 } : Camera ℚ)
            isOrthoView := false
            isToggleMode := true
            wallNorth := [⟨true, 1, (1, 1, 1), none⟩]
            wallWest := [⟨true, 1, (1, 1, 1), none⟩] } : World ℚ) = some w' ∧
      (∀ m ∈ w'.wallNorth, m.enabled = true) ∧
      (∀ m ∈ w'.wallWest, m.enabled = false) := by
  have hq : getQuadrant (4 : ℚ) ({ initialCamera 4 id with alpha := 1 } : Camera ℚ).alpha
      = 1 := by
    unfold getQuadrant jsMod jsTrunc
    norm_num
  obtain ⟨w', heq, _, _, hq3⟩ :=
    wall_visibility_table (4 : ℚ)
      ({ initialWorld 0 with
          camera := some ({ initialCamera 4 id with alpha := 1 } : Camera ℚ)
          isOrthoView := false
          isToggleMode := true
          wallNorth := [⟨true, 1, (1, 1, 1), none⟩]
          wallWest := [⟨true, 1, (1, 1, 1), none⟩] } : World ℚ)
      ({ initialCamera 4 id with alpha := 1 } : Camera ℚ) rfl
  obtain ⟨hq1, _, _, _⟩ := hq3 rfl rfl
  obtain ⟨hN, _, hW, _⟩ := hq1 hq
  exact ⟨rfl, hq, w', heq, hN, hW⟩

/-! ### C7: furniture mutual exclusion -/

theorem hideFurnitureMeshes_mem (ms : List (Mesh α)) :
    ∀ m ∈ hideFurnitureMeshes ms, m.enabled = false := by
  intro m hm
  simp only [hideFurnitureMeshes, List.mem_map] at hm
  obtain ⟨a, _, rfl⟩ := hm
  rfl

theorem setFurnitureSet_mem (b : Bool) (ms : List (Mesh α)) :
    ∀ m ∈ setFurnitureSet b ms, m.enabled = b := by
  intro m hm
  simp only [setFurnitureSet, List.mem_map] at hm
  obtain ⟨a, _, rfl⟩ := hm
  rfl

theorem updateFurnitureVisibility_inv (w : World α) :
    furnInv (updateFurnitureVisibility w) := by
  unfold furnInv updateFurnitureVisibility
  by_cases ht : w.isToggleMode = false
  · rw [if_pos ht]
    refine ⟨?_, ?_, ?_⟩ <;>
      (rintro ⟨m, hm, he⟩
       rw [hideFurnitureMeshes_mem _ m hm] at he
       exact Bool.noConfusion he)
  · rw [if_neg ht]
    have ht' : w.isToggleMode = true := by
      cases hbool : w.isToggleMode
      · exact absurd hbool ht
      · rfl
    refine ⟨?_, ?_, ?_⟩ <;>
      (rintro ⟨m, hm, he⟩
       rw [setFurnitureSet_mem _ _ m hm] at he
       exact ⟨ht', of_decide_eq_true he⟩)

theorem updateFurnitureVisibility_idx (w : World α) :
    (updateFurnitureVisibility w).currentFurnitureIndex = w.currentFurnitureIndex := by
  unfold updateFurnitureVisibility
  split <;> rfl

theorem furnInv_of_reach (pi : α) (w0 w : World α) (h0 : furnInv w0)
    (hr : FurnReachable pi w0 w) : furnInv w := by
  induction hr with
  | refl => exact h0
  | cycle v _ _ => exact updateFurnitureVisibility_inv _
  | toggle v w' _ htog _ =>
    obtain ⟨u, hu, _, _, _, _⟩ := toggleMode_shape pi v w' htog
    rw [hu]
    exact updateFurnitureVisibility_inv u

/-- C7.  Starting from a load state in which all furniture meshes are
disabled, after any sequence of furniture-cycle actions and toggle-mode
flips: at most one of the three furniture sets has any mesh enabled; with
toggle mode off all furniture sets are hidden; and cycling advances the
selection index by one modulo the four options (`3` sets plus "none"). -/
theorem furniture_mutual_exclusion (pi : α) (w0 w : World α)
    (h01 : furnMeshesHidden w0.furniture1) (h02 : furnMeshesHidden w0.furniture2)
    (h03 : furnMeshesHidden w0.furniture3) (hr : FurnReachable pi w0 w) :
    (¬(furnSetOn w.furniture1 ∧ furnSetOn w.furniture2) ∧
      ¬(furnSetOn w.furniture1 ∧ furnSetOn w.furniture3) ∧
      ¬(furnSetOn w.furniture2 ∧ furnSetOn w.furniture3)) ∧
    (w.isToggleMode = false →
      furnMeshesHidden w.furniture1 ∧ furnMeshesHidden w.furniture2 ∧
        furnMeshesHidden w.furniture3) ∧
    (∀ v : World α,
      (cycleFurniture v).currentFurnitureIndex = (v.currentFurnitureIndex + 1) % 4) := by
  have h0 : furnInv w0 := by
    refine ⟨?_, ?_, ?_⟩
    · rintro ⟨m, hm, he⟩
      rw [h01 m hm] at he
      exact Bool.noConfusion he
    · rintro ⟨m, hm, he⟩
      rw [h02 m hm] at he
      exact Bool.noConfusion he
    · rintro ⟨m, hm, he⟩
      rw [h03 m hm] at he
      exact Bool.noConfusion he
  have hinv : furnInv w := furnInv_of_reach pi w0 w h0 hr
  refine ⟨⟨?_, ?_, ?_⟩, ?_, ?_⟩
  · rintro ⟨ha, hb⟩
    have h1 := (hinv.1 ha).2
    have h2 := (hinv.2.1 hb).2
    rw [h1] at h2
    simp at h2
  · rintro ⟨ha, hb⟩
    have h1 := (hinv.1 ha).2
    have h2 := (hinv.2.2 hb).2
    rw [h1] at h2
    simp at h2
  · rintro ⟨ha, hb⟩
    have h1 := (hinv.2.1 ha).2
    have h2 := (hinv.2.2 hb).2
    rw [h1] at h2
    simp at h2
  · intro htf
    refine ⟨?_, ?_, ?_⟩
    · intro m hm
      cases henb : m.enabled with
      | false => rfl
      | true =>
        obtain ⟨htt, _⟩ := hinv.1 ⟨m, hm, henb⟩
        rw [htf] at htt
        exact Bool.noConfusion htt
    · intro m hm
      cases henb : m.enabled with
      | false => rfl
      | true =>
        obtain ⟨htt, _⟩ := hinv.2.1 ⟨m, hm, henb⟩
        rw [htf] at htt
        exact Bool.noConfusion htt
    · intro m hm
      cases henb : m.enabled with
      | false => rfl
      | true =>
        obtain ⟨htt, _⟩ := hinv.2.2 ⟨m, hm, henb⟩
        rw [htf] at htt
        exact Bool.noConfusion htt
  · intro v
    unfold cycleFurniture
    rw [updateFurnitureVisibility_idx]
    rfl

/-- C7 witness: over `ℚ`, one cycle action from an all-hidden load state
with one mesh per set keeps the sets mutually exclusive and advances the
index from 0 to 1. -/
theorem furniture_mutual_exclusion_witness :
    furnMeshesHidden ({ initialWorld 0 with
        furniture1 := [⟨false, 0, (1, 1, 1), none⟩]
        furniture2 := [⟨false, 0, (1, 1, 1), none⟩]
        furniture3 := [⟨false, 0, (1, 1, 1), none⟩] } : World ℚ).furniture1 ∧
    (¬(furnSetOn (cycleFurniture ({ initialWorld 0 with
        furniture1 := [⟨false, 0, (1, 1, 1), none⟩]
        furniture2 := [⟨false, 0, (1, 1, 1), none⟩]
        furniture3 := [⟨false, 0, (1, 1, 1), none⟩] } : World ℚ)).furniture1 ∧
      furnSetOn (cycleFurniture ({ initialWorld 0 with
        furniture1 := [⟨false, 0, (1, 1, 1), none⟩]
        furniture2 := [⟨false, 0, (1, 1, 1), none⟩]
        furniture3 := [⟨false, 0, (1, 1, 1), none⟩] } : World ℚ)).furniture2)) ∧
    (cycleFurniture ({ initialWorld 0 with
        furniture1 := [⟨false, 0, (1, 1, 1), none⟩]
        furniture2 := [⟨false, 0, (1, 1, 1), none⟩]
        furniture3 := [⟨false, 0, (1, 1, 1), none⟩] } : World ℚ)).currentFurnitureIndex =
      (({ initialWorld 0 with
        furniture1 := [⟨false, 0, (1, 1, 1), none⟩]
        furniture2 := [⟨false, 0, (1, 1, 1), none⟩]
        furniture3 := [⟨false, 0, (1, 1, 1), none⟩] } : World ℚ).currentFurnitureIndex + 1)
        % 4 := by
  have hhid : ∀ m ∈ ([⟨false, 0, (1, 1, 1), none⟩] : List (Mesh ℚ)), m.enabled = false := by
    intro m hm
    simp only [List.mem_singleton] at hm
    subst hm
    rfl
  obtain ⟨⟨hab, _, _⟩, _, hidx⟩ :=
    furniture_mutual_exclusion (4 : ℚ)
      ({ initialWorld 0 with
          furniture1 := [⟨false, 0, (1, 1, 1), none⟩]
          furniture2 := [⟨false, 0, (1, 1, 1), none⟩]
          furniture3 := [⟨false, 0, (1, 1, 1), none⟩] } : World ℚ) _
      hhid hhid hhid
      (FurnReachable.cycle _ FurnReachable.refl)
  exact ⟨hhid, hab, hidx _⟩

/-! ### C10: null-camera safety -/

theorem updateFurnitureVisibility_walls (w : World α) :
    (updateFurnitureVisibility w).wallNorth = w.wallNorth ∧
    (updateFurnitureVisibility w).wallSouth = w.wallSouth ∧
    (updateFurnitureVisibility w).wallEast = w.wallEast ∧
    (updateFurnitureVisibility w).wallWest = w.wallWest := by
  unfold updateFurnitureVisibility
  refine ⟨?_, ?_, ?_, ?_⟩ <;> (split <;> rfl)

theorem updateFurnitureVisibility_cam_ortho (w : World α) :
    (updateFurnitureVisibility w).camera = w.camera ∧
    (updateFurnitureVisibility w).isOrthoView = w.isOrthoView := by
  unfold updateFurnitureVisibility
  constructor <;> (split <;> rfl)

theorem updateCameraFromScroll_none (pi : α) (tan : α → α) (now progress : α)
    (w : World α) (h : w.camera = none) :
    updateCameraFromScroll pi tan now progress w = some w := by
  unfold updateCameraFromScroll
  rw [h]

/-- C10.  In every reachable program state, a `null` camera implies the
ortho-view flag is still set (`isOrthoView` is initialized to `true` and only
reassigned by the per-frame update after its early return on a `null`
camera); consequently invoking `toggleMode` before the camera exists never
dereferences the `null` camera: it takes the hide-all-walls branch, succeeds,
and leaves every wall group disabled. -/
theorem null_camera_safety (pi : α) (tan : α → α) (t0 : α) (w : World α)
    (hr : Reachable pi tan t0 w) :
    (w.camera = none → w.isOrthoView = true) ∧
    (w.camera = none →
      ∃ w', toggleMode pi w = some w' ∧
        (∀ m ∈ w'.wallNorth, m.enabled = false) ∧ (∀ m ∈ w'.wallSouth, m.enabled = false) ∧
        (∀ m ∈ w'.wallEast, m.enabled = false) ∧ (∀ m ∈ w'.wallWest, m.enabled = false)) := by
  have hinv : w.camera = none → w.isOrthoView = true := by
    induction hr with
    | init =>
      intro _
      rfl
    | createCamera v _ _ =>
      intro hc
      exact absurd hc (by simp)
    | envLoad v v' _ hcam hortho ih =>
      intro hc
      rw [hcam] at hc
      rw [hortho]
      exact ih hc
    | frame v w' now p _ heq ih =>
      intro hc
      rcases hvc : v.camera with _ | cam
      · have hstep := updateCameraFromScroll_none pi tan now p v hvc
        rw [hstep] at heq
        obtain rfl := Option.some.inj heq
        exact ih hvc
      · obtain ⟨w'', cam', heq', hcam', -⟩ :=
          updateCameraFromScroll_char pi tan now p v cam hvc
        obtain rfl := Option.some.inj (heq'.symm.trans heq)
        rw [hcam'] at hc
        exact Option.noConfusion hc
    | toggle v w' _ htog ih =>
      intro hc
      obtain ⟨u, hu, _, hucam, huortho, _⟩ := toggleMode_shape pi v w' htog
      have h1 : w'.camera = v.camera := by
        rw [hu, (updateFurnitureVisibility_cam_ortho u).1, hucam]
      have h2 : w'.isOrthoView = v.isOrthoView := by
        rw [hu, (updateFurnitureVisibility_cam_ortho u).2, huortho]
      rw [h1] at hc
      rw [h2]
      exact ih hc
    | cycle v _ ih =>
      intro hc
      have h1 : (cycleFurniture v).camera = v.camera := by
        unfold cycleFurniture
        rw [(updateFurnitureVisibility_cam_ortho _).1]
      have h2 : (cycleFurniture v).isOrthoView = v.isOrthoView := by
        unfold cycleFurniture
        rw [(updateFurnitureVisibility_cam_ortho _).2]
      rw [h1] at hc
      rw [h2]
      exact ih hc
    | resetIdle v now _ ih =>
      intro hc
      exact ih hc
  refine ⟨hinv, ?_⟩
  intro hc
  have hortho := hinv hc
  unfold toggleMode
  dsimp only
  have hcore := updateAccentEmission_core (!w.isToggleMode)
    ({ w with isToggleMode := !w.isToggleMode } : World α)
  have hw2ortho : (updateAccentEmission (!w.isToggleMode)
      ({ w with isToggleMode := !w.isToggleMode } : World α)).isOrthoView = true := by
    rw [hcore.2.2.2.2.2.1]
    exact hortho
  have hwall : updateWallVisibilityForMode pi (updateAccentEmission (!w.isToggleMode)
      ({ w with isToggleMode := !w.isToggleMode } : World α)) =
      some (hideAllWalls (updateAccentEmission (!w.isToggleMode)
        ({ w with isToggleMode := !w.isToggleMode } : World α))) := by
    unfold updateWallVisibilityForMode
    rw [if_pos hw2ortho]
  rw [hwall]
  refine ⟨_, rfl, ?_, ?_, ?_, ?_⟩
  · rw [(updateFurnitureVisibility_walls _).1]
    exact setWallEnabled_mem _ _
  · rw [(updateFurnitureVisibility_walls _).2.1]
    exact setWallEnabled_mem _ _
  · rw [(updateFurnitureVisibility_walls _).2.2.1]
    exact setWallEnabled_mem _ _
  · rw [(updateFurnitureVisibility_walls _).2.2.2]
    exact setWallEnabled_mem _ _

/-- C10 witness: the initial module state (no camera yet) is reachable, has
the ortho flag set, and toggling there succeeds with all walls hidden. -/
theorem null_camera_safety_witness :
    ((initialWorld 0 : World ℚ).camera = none →
      (initialWorld 0 : World ℚ).isOrthoView = true) ∧
    ((initialWorld 0 : World ℚ).camera = none) ∧
    ∃ w', toggleMode (4 : ℚ) (initialWorld 0 : World ℚ) = some w' ∧
      (∀ m ∈ w'.wallNorth, m.enabled = false) ∧ (∀ m ∈ w'.wallSouth, m.enabled = false) ∧
      (∀ m ∈ w'.wallEast, m.enabled = false) ∧ (∀ m ∈ w'.wallWest, m.enabled = false) := by
  obtain ⟨h1, h2⟩ := null_camera_safety (4 : ℚ) id 0 (initialWorld 0) Reachable.init
  exact ⟨h1, rfl, h2 rfl⟩

end Scrollable
